/-
  Verification of the Radware CAP Open Service Broker (OSB) core:
  a shallow embedding of the in-memory state store (src/store/memoryStore.js),
  the Radware upstream client (radwareApi.js: mapError / isRetryableError /
  makeRequest / high-level helpers) and the OSB route handlers
  (src/routes/osb.js: provision PUT, update PATCH, deprovision DELETE,
  bind PUT, plus the detached async jobs), together with theorems about
  idempotency, the pending-operation gate, error mapping, retry bounds,
  cascade deletion and the pending-flag invariant.

  JavaScript `Map`s are embedded as association lists with
  replace-on-insert semantics; JS `Set`s as duplicate-free-by-construction
  lists; `undefined`-able values as `Option`; thrown JS errors as `Except`
  (the ad hoc `status`/`description` fields of thrown errors become the
  `JsError` structure).  Wall-clock timestamps are passed in explicitly.
-/
import Mathlib

namespace RadwareOSB

/-! ### Association-list maps (JS `Map`) and JS value helpers -/

/-- First-match lookup in an association list (JS `Map.get`). -/
def mfind {α : Type} (m : List (String × α)) (k : String) : Option α :=
  match m with
  | [] => none
  | (k', v) :: rest => if k' = k then some v else mfind rest k

/-- Remove a key (JS `Map.delete`). -/
def mdel {α : Type} (m : List (String × α)) (k : String) : List (String × α) :=
  match m with
  | [] => []
  | (k', v) :: rest => if k' = k then mdel rest k else (k', v) :: mdel rest k

/-- Insert / replace a key (JS `Map.set`). -/
def mset {α : Type} (m : List (String × α)) (k : String) (v : α) :
    List (String × α) :=
  (k, v) :: mdel m k

/-- Add an element to a JS `Set` (no duplicates). -/
def setAdd (l : List String) (x : String) : List String :=
  if x ∈ l then l else l ++ [x]

/-- Remove an element from a JS `Set`. -/
def setDel (l : List String) (x : String) : List String :=
  l.filter (fun y => y ≠ x)

/-- JS truthiness of an optional string (`undefined`, `null` and `""` are falsy). -/
def jsTruthy (o : Option String) : Bool :=
  match o with
  | none => false
  | some s => s ≠ ""

/-- JS `a || b` for an optional string falling back to a string. -/
def jsOrD (a : Option String) (b : String) : String :=
  match a with
  | some s => if s = "" then b else s
  | none => b

/-- JS `a || b` for an optional numeric status (0 is falsy). -/
def jsOrNat (a : Option Nat) (b : Nat) : Nat :=
  match a with
  | some n => if n = 0 then b else n
  | none => b

/-- JS `a || b` where both sides are optional strings. -/
def jsOrOpt (a b : Option String) : Option String :=
  if jsTruthy a then a else b


/-! ### Data model (src/store/memoryStore.js records) -/

/-- Opaque key-value bag (a plain JS object used for `context`, `parameters`,
`bind_resource`). -/
abbrev Bag := List (String × String)

/-- The three operation states of the OSB lifecycle. -/
inductive OpState where
  | inProgress
  | succeeded
  | failed
deriving DecidableEq

/-- `state === 'succeeded' || state === 'failed'`. -/
def OpState.isTerminal : OpState → Bool
  | .succeeded => true
  | .failed => true
  | .inProgress => false

/-- An operation record as stored by `MemoryStore.setOperation`. -/
structure Operation where
  instanceId : String
  type : String
  state : OpState
  description : Option String
  createdAt : String
  updatedAt : String
deriving DecidableEq

/-- The `operationData` argument of `setOperation` (spread into the record). -/
structure OperationData where
  type : String
  state : OpState
  description : Option String := none
deriving DecidableEq

/-- A service-instance record as stored by `MemoryStore.createInstance`. -/
structure ServiceInstance where
  serviceId : String
  planId : String
  context : Option Bag
  parameters : Option Bag
  accountId : Option String
  radwareServiceId : Option String
  createdAt : String
  updatedAt : String
deriving DecidableEq

/-- The `instanceData` argument of `createInstance`. -/
structure InstanceData where
  serviceId : String
  planId : String
  context : Option Bag := none
  parameters : Option Bag := none
  accountId : Option String := none
  radwareServiceId : Option String := none
deriving DecidableEq

/-- Credentials returned by bind (userId / email / owning account). -/
structure Credentials where
  userId : String
  email : String
  accountId : Option String
deriving DecidableEq

/-- A binding record as stored by `MemoryStore.createBinding`. -/
structure ServiceBinding where
  instanceId : String
  serviceId : String
  planId : String
  bindResource : Option Bag
  parameters : Option Bag
  credentials : Credentials
  radwareUserId : String
  createdAt : String
deriving DecidableEq

/-- The `bindingData` argument of `createBinding`. -/
structure BindingData where
  serviceId : String
  planId : String
  bindResource : Option Bag := none
  parameters : Option Bag := none
  credentials : Credentials
  radwareUserId : String
deriving DecidableEq

/-- The `updates` object passed to `updateInstance`; `none` means the key is
absent from the update object, so the stored field is kept by the shallow
spread `\x7b...current, ...updates\x7d`. -/
structure InstanceUpdate where
  serviceId : Option String := none
  planId : Option String := none
  context : Option Bag := none
  parameters : Option Bag := none
  accountId : Option String := none
  radwareServiceId : Option String := none
deriving DecidableEq

/-- The whole `MemoryStore` state: instances, bindings, operations, the
per-instance operation index `instanceOps` and the `pendingOperations` set. -/
structure Store where
  instances : List (String × ServiceInstance)
  bindings : List (String × ServiceBinding)
  operations : List (String × Operation)
  instanceOps : List (String × List String)
  pendingOperations : List String
deriving DecidableEq

/-- The store as built by the `MemoryStore` constructor. -/
def emptyStore : Store := ⟨[], [], [], [], []⟩

/-- `o.state && o.state.toLowerCase() === 'in progress'`. -/
def inProgressB (o : Operation) : Bool := decide (o.state = OpState.inProgress)

/-! ### MemoryStore operations (src/store/memoryStore.js) -/

/-- `MemoryStore.createInstance`: throws if the id is taken, else stores the
record with `createdAt`/`updatedAt` stamped to `now`. -/
def createInstance (s : Store) (instanceId : String) (d : InstanceData)
    (now : String) : Except String Store :=
  if (mfind s.instances instanceId).isSome then
    .error ("Instance " ++ instanceId ++ " already exists")
  else
    let inst : ServiceInstance :=
      { serviceId := d.serviceId, planId := d.planId, context := d.context,
        parameters := d.parameters, accountId := d.accountId,
        radwareServiceId := d.radwareServiceId, createdAt := now, updatedAt := now }
    .ok { s with instances := mset s.instances instanceId inst }

/-- `MemoryStore.getInstance`. -/
def getInstance (s : Store) (instanceId : String) : Option ServiceInstance :=
  mfind s.instances instanceId

/-- The record produced by `updateInstance`'s shallow spread
`\x7b...current, ...updates, updatedAt\x7d`: top-level fields present in the
update object replace the stored ones wholesale. -/
def mergedInstance (current : ServiceInstance) (updates : InstanceUpdate)
    (now : String) : ServiceInstance :=
  { serviceId := updates.serviceId.getD current.serviceId,
    planId := updates.planId.getD current.planId,
    context := (match updates.context with
      | some c => some c
      | none => current.context),
    parameters := (match updates.parameters with
      | some p => some p
      | none => current.parameters),
    accountId := (match updates.accountId with
      | some a => some a
      | none => current.accountId),
    radwareServiceId := (match updates.radwareServiceId with
      | some r => some r
      | none => current.radwareServiceId),
    createdAt := current.createdAt,
    updatedAt := now }

/-- `MemoryStore.updateInstance`: throws NotFound if absent, else shallow-merges
the update object over the current record and stamps `updatedAt`. -/
def updateInstance (s : Store) (instanceId : String) (updates : InstanceUpdate)
    (now : String) : Except String Store :=
  match mfind s.instances instanceId with
  | none => .error ("Instance " ++ instanceId ++ " not found")
  | some current =>
    let updated : ServiceInstance := mergedInstance current updates now
    .ok { s with instances := mset s.instances instanceId updated }

/-- `MemoryStore.getBinding`. -/
def getBinding (s : Store) (bindingId : String) : Option ServiceBinding :=
  mfind s.bindings bindingId

/-- `MemoryStore.createBinding`: throws if the binding id is taken or the
owning instance is absent. -/
def createBinding (s : Store) (instanceId bindingId : String) (d : BindingData)
    (now : String) : Except String Store :=
  if (mfind s.bindings bindingId).isSome then
    .error ("Binding " ++ bindingId ++ " already exists")
  else if (mfind s.instances instanceId).isNone then
    .error ("Instance " ++ instanceId ++ " not found for binding " ++ bindingId)
  else
    let b : ServiceBinding :=
      { instanceId := instanceId, serviceId := d.serviceId, planId := d.planId,
        bindResource := d.bindResource, parameters := d.parameters,
        credentials := d.credentials, radwareUserId := d.radwareUserId,
        createdAt := now }
    .ok { s with bindings := mset s.bindings bindingId b }

/-- `MemoryStore.deleteBinding`. -/
def deleteBinding (s : Store) (bindingId : String) : Store × Bool :=
  if (mfind s.bindings bindingId).isSome then
    ({ s with bindings := mdel s.bindings bindingId }, true)
  else (s, false)

/-- `MemoryStore.getOperation`. -/
def getOperation (s : Store) (operationId : String) : Option Operation :=
  mfind s.operations operationId

/-- `MemoryStore.listOperationsByInstance`. -/
def listOperationsByInstance (s : Store) (instanceId : String) : List Operation :=
  match mfind s.instanceOps instanceId with
  | none => []
  | some ids => ids.filterMap (fun opId => mfind s.operations opId)

/-- `MemoryStore.setOperation`: registers (or overwrites) the operation, indexes
it under its instance, and marks the instance pending when it is in progress. -/
def setOperation (s : Store) (instanceId operationId : String)
    (d : OperationData) (now : String) : Store :=
  let op : Operation :=
    { instanceId := instanceId, type := d.type, state := d.state,
      description := d.description, createdAt := now, updatedAt := now }
  let ids := (mfind s.instanceOps instanceId).getD []
  { s with
    operations := mset s.operations operationId op,
    instanceOps := mset s.instanceOps instanceId (setAdd ids operationId),
    pendingOperations :=
      (if op.state = OpState.inProgress then setAdd s.pendingOperations instanceId
       else s.pendingOperations) }

/-- The scan over an instance's indexed operation ids checking whether any of
them is still in progress in the operations map. -/
def anyInProgressIn (ops : List (String × Operation)) (ids : List String) : Bool :=
  ids.any (fun id =>
    match mfind ops id with
    | some o => inProgressB o
    | none => false)

/-- The mutation `updateOperation` performs in place on an operation record:
set the state, stamp `updatedAt`, and set the description when one is given. -/
def updatedOp (op : Operation) (state : OpState) (description : Option String)
    (now : String) : Operation :=
  { op with
    state := state,
    updatedAt := now,
    description := (match description with
      | some d => some d
      | none => op.description) }

/-- `MemoryStore.updateOperation`: throws NotFound if absent; sets the state
(and description when given), stamps `updatedAt`, and on a transition to a
terminal state clears the pending flag unless another operation of the same
instance is still in progress. -/
def updateOperation (s : Store) (operationId : String) (state : OpState)
    (description : Option String) (now : String) : Except String Store :=
  match mfind s.operations operationId with
  | none => .error ("Operation " ++ operationId ++ " not found")
  | some op =>
    let op' : Operation := updatedOp op state description now
    let s' := { s with operations := mset s.operations operationId op' }
    if state = OpState.succeeded ∨ state = OpState.failed then
      match mfind s'.instanceOps op.instanceId with
      | some ids =>
        if anyInProgressIn s'.operations ids then .ok s'
        else .ok { s' with
          pendingOperations := setDel s'.pendingOperations op.instanceId }
      | none =>
        .ok { s' with
          pendingOperations := setDel s'.pendingOperations op.instanceId }
    else .ok s'

/-- `updateOperation` as it acts on the store from inside a detached async job:
a throw escapes the job without mutating anything. -/
def updateOperationD (s : Store) (operationId : String) (state : OpState)
    (description : Option String) (now : String) : Store :=
  match updateOperation s operationId state description now with
  | .ok s' => s'
  | .error _ => s

/-- `MemoryStore.deleteOperation`: removes the record and its index entry, then
recomputes the pending flag of its instance. -/
def deleteOperation (s : Store) (operationId : String) : Store × Bool :=
  match mfind s.operations operationId with
  | none => (s, false)
  | some op =>
    let instanceOps :=
      match mfind s.instanceOps op.instanceId with
      | some ids =>
        let remaining := setDel ids operationId
        if remaining.isEmpty then mdel s.instanceOps op.instanceId
        else mset s.instanceOps op.instanceId remaining
      | none => s.instanceOps
    let s' := { s with
      operations := mdel s.operations operationId,
      instanceOps := instanceOps }
    let anyInProgress := (listOperationsByInstance s' op.instanceId).any inProgressB
    let s'' :=
      if anyInProgress then s'
      else { s' with pendingOperations := setDel s'.pendingOperations op.instanceId }
    (s'', true)

/-- `MemoryStore.clearOperationsForInstance`. -/
def clearOperationsForInstance (s : Store) (instanceId : String) : Store :=
  let s' :=
    match mfind s.instanceOps instanceId with
    | some ids =>
      { s with
        operations := ids.foldl (fun ops opId => mdel ops opId) s.operations,
        instanceOps := mdel s.instanceOps instanceId }
    | none => s
  { s' with pendingOperations := setDel s'.pendingOperations instanceId }

/-- `MemoryStore.hasPendingOperation`. -/
def hasPendingOperation (s : Store) (instanceId : String) : Bool :=
  decide (instanceId ∈ s.pendingOperations)

/-- The operation ids `deleteInstance` removes for an instance: those of its
indexed operations that are found in a terminal state. -/
def terminalOpIds (operations : List (String × Operation)) (ids : List String) :
    List String :=
  ids.filter (fun opId =>
    match mfind operations opId with
    | some op => op.state.isTerminal
    | none => false)

/-- The operations-cleanup step of `deleteInstance`: delete the instance's
terminal operations from the map and from its index set, dropping the index
entry when it becomes empty.  Returns the new operations map and index. -/
def cascadeOps (operations : List (String × Operation))
    (instanceOps : List (String × List String)) (instanceId : String) :
    List (String × Operation) × List (String × List String) :=
  match mfind instanceOps instanceId with
  | none => (operations, instanceOps)
  | some ids =>
    let toDelete := terminalOpIds operations ids
    let remaining := ids.filter (fun opId => decide (opId ∉ toDelete))
    (toDelete.foldl (fun ops opId => mdel ops opId) operations,
     if remaining.isEmpty then mdel instanceOps instanceId
     else mset instanceOps instanceId remaining)

/-- The body of `deleteInstance` once the instance was found: drop the
instance, cascade its bindings, clean up its operations, and clear the
pending flag unless something is still in progress. -/
def deleteInstanceFound (s : Store) (instanceId : String) : Store :=
  let s1 := { s with instances := mdel s.instances instanceId }
  let s2 := { s1 with
    bindings := s1.bindings.filter (fun p => decide (p.2.instanceId ≠ instanceId)) }
  let co := cascadeOps s2.operations s2.instanceOps instanceId
  let s3 := { s2 with operations := co.1, instanceOps := co.2 }
  if (listOperationsByInstance s3 instanceId).any inProgressB then s3
  else { s3 with pendingOperations := setDel s3.pendingOperations instanceId }

/-- `MemoryStore.deleteInstance`: returns whether the instance existed; on
success cascades bindings, deletes terminal operations of the instance (keeping
in-progress ones) and clears the pending flag when nothing is left in
progress. -/
def deleteInstance (s : Store) (instanceId : String) : Store × Bool :=
  match mfind s.instances instanceId with
  | none => (s, false)
  | some _ => (deleteInstanceFound s instanceId, true)

/-! ### Store mutation sequences (for invariant statements) -/

/-- One mutating call of the `MemoryStore` operations API. -/
inductive Mut where
  | set (instanceId operationId : String) (d : OperationData) (now : String)
  | upd (operationId : String) (state : OpState) (description : Option String)
      (now : String)
  | delOp (operationId : String)
  | delInst (instanceId : String)
  | clearOps (instanceId : String)
deriving DecidableEq

/-- Apply one mutation to the store (a thrown NotFound leaves it unchanged). -/
def applyMut (s : Store) : Mut → Store
  | .set iid opId d now => setOperation s iid opId d now
  | .upd opId st desc now => updateOperationD s opId st desc now
  | .delOp opId => (deleteOperation s opId).1
  | .delInst iid => (deleteInstance s iid).1
  | .clearOps iid => clearOperationsForInstance s iid

/-- The calling discipline the protocol engine follows: `setOperation`
registers only operation ids not currently recorded, and `updateOperation`
only moves operations to a terminal state. -/
def mutOk (s : Store) : Mut → Prop
  | .set _ opId _ _ => mfind s.operations opId = none
  | .upd _ st _ _ => st.isTerminal = true
  | .delOp _ => True
  | .delInst _ => True
  | .clearOps _ => True

/-- Apply a sequence of mutations in order. -/
def applyMuts (s : Store) : List Mut → Store
  | [] => s
  | m :: ms => applyMuts (applyMut s m) ms

/-- Every mutation of the sequence respects the calling discipline in the
store state it is applied to. -/
def OkSeq (s : Store) : List Mut → Prop
  | [] => True
  | m :: ms => mutOk s m ∧ OkSeq (applyMut s m) ms

instance decMutOk (s : Store) (m : Mut) : Decidable (mutOk s m) :=
  match m with
  | .set _ opId _ _ => inferInstanceAs (Decidable (mfind s.operations opId = none))
  | .upd _ st _ _ => inferInstanceAs (Decidable (st.isTerminal = true))
  | .delOp _ => inferInstanceAs (Decidable True)
  | .delInst _ => inferInstanceAs (Decidable True)
  | .clearOps _ => inferInstanceAs (Decidable True)

instance decOkSeq (s : Store) (ms : List Mut) : Decidable (OkSeq s ms) :=
  match ms with
  | [] => inferInstanceAs (Decidable True)
  | m :: rest =>
    have : Decidable (OkSeq (applyMut s m) rest) := decOkSeq (applyMut s m) rest
    inferInstanceAs (Decidable (mutOk s m ∧ OkSeq (applyMut s m) rest))

/-! ### Radware upstream client (src/services/radwareApi.js) -/

/-- An upstream HTTP error response: axios `error.response` with its `status`
and optional `data.message`. -/
structure UpstreamResponse where
  status : Nat
  message : Option String := none
deriving DecidableEq

/-- A thrown JS error as probed by the routes: the ad hoc `status` /
`description` fields set by `mapError`, and the built-in `Error.message`. -/
structure JsError where
  status : Option Nat := none
  description : Option String := none
  message : String := ""
deriving DecidableEq

/-- `RadwareApi.mapError`: normalizes an axios failure (`none` = no HTTP
response at all) into the broker's fixed error taxonomy. -/
def mapError (response : Option UpstreamResponse) : JsError :=
  match response with
  | none =>
    { status := some 502,
      description := some "Unable to connect to Radware backend service" }
  | some r =>
    if r.status = 400 then
      { status := some 400,
        description := some (jsOrD r.message "Invalid request to Radware backend") }
    else if r.status = 401 then
      { status := some 502,
        description := some "Authentication failed with Radware backend" }
    else if r.status = 403 then
      { status := some 502,
        description := some "Access denied by Radware backend" }
    else if r.status = 404 then
      { status := some 410,
        description := some "Resource not found in Radware backend" }
    else if r.status = 409 then
      { status := some 409,
        description := some (jsOrD r.message "Conflict in Radware backend") }
    else if r.status = 422 then
      { status := some 422,
        description := some (jsOrD r.message "Invalid parameters for Radware backend") }
    else
      { status := some 502,
        description := some "Radware backend service error" }

/-- `RadwareApi.isRetryableError`: retry on no-response, 5xx, 408 or 429. -/
def isRetryableError (response : Option UpstreamResponse) : Bool :=
  match response with
  | none => true
  | some r => decide (500 ≤ r.status) || decide (r.status = 408) || decide (r.status = 429)

/-- The outcome of one attempt as seen by `makeRequest`: the response data on
success, or an axios error carrying the optional HTTP response. -/
inductive Attempt where
  | ok (data : String)
  | fail (response : Option UpstreamResponse)
deriving DecidableEq

deriving instance DecidableEq for Except

/-- Observable behavior of a `makeRequest` run: the value returned or error
thrown, the number of attempts performed, and the backoff delays (in ms) slept
before each retry, in order. -/
structure RunResult where
  result : Except JsError String
  attempts : Nat
  delays : List Nat
deriving DecidableEq

/-- `RadwareApi.makeRequest`, the single retrying request executor, with the
network abstracted as `oracle n` = the outcome of attempt number `n` (the
0-based `retryCount`). -/
def makeRequest (oracle : Nat → Attempt) (retries : Nat) (retryCount : Nat) :
    RunResult :=
  match oracle retryCount with
  | .ok d => { result := .ok d, attempts := 1, delays := [] }
  | .fail response =>
    if h : retryCount < retries ∧ isRetryableError response then
      let rest := makeRequest oracle retries (retryCount + 1)
      { result := rest.result, attempts := rest.attempts + 1,
        delays := min (1000 * 2 ^ retryCount) 10000 :: rest.delays }
    else
      { result := .error (mapError response), attempts := 1, delays := [] }
termination_by retries - retryCount
decreasing_by
  have := h.1
  omega

/-- `config.radware.retries` default (`RADWARE_RETRIES`, Joi default 3). -/
def radwareRetriesDefault : Nat := 3

/-! ### OSB route handlers (src/routes/osb.js) -/

/-- The broker configuration consumed by the routes (`config.osb`). -/
structure Config where
  enableAsync : Bool
  dashboardBase : String
deriving DecidableEq

/-- The result of `RadwareApi.createAccountOrServiceForInstance`: the created
upstream account id and CWAF service id. -/
structure RadwareProvisionResult where
  accountId : String
  serviceId : String
deriving DecidableEq

/-- The record returned by `RadwareApi.createContactUser` (built from the
upstream user entity). -/
structure ContactUser where
  id : String
  email : String
deriving DecidableEq

/-- A call into the Radware upstream client, recorded so theorems can state
which upstream operations a handler performed and with which arguments. -/
inductive UpstreamCall where
  | createAccountOrService (instanceId planId : String) (parameters : Option Bag)
  | deleteAccountOrService (accountId radwareServiceId : Option String)
  | updateServicePlan (serviceId newPlanId : String) (params : Bag)
  | createContactUser (accountId : Option String) (email : String)
      (additionalData : Option Bag)
  | deleteContactUser (id : String)
deriving DecidableEq

/-- The shape of an OSB HTTP response body together with its status. -/
structure HttpResponse where
  status : Nat
  description : Option String := none
  error : Option String := none
  dashboardUrl : Option String := none
  operation : Option String := none
  credentials : Option Credentials := none
deriving DecidableEq

/-- A provision request (PUT /v2/service_instances/:instance_id): `none` body
fields are absent. -/
structure ProvisionReq where
  instanceId : String
  serviceId : Option String := none
  planId : Option String := none
  context : Option Bag := none
  parameters : Option Bag := none
  acceptsIncomplete : Bool := false
deriving DecidableEq

/-- What the detached async provision job closure captures. -/
structure ProvisionJob where
  operationId : String
  instanceId : String
  serviceId : String
  planId : String
  context : Option Bag
  parameters : Option Bag
deriving DecidableEq

/-- Output of the provision handler: response, store after the handler
returned, upstream calls made inline, and the detached job if one was
scheduled. -/
structure ProvisionOut where
  resp : HttpResponse
  store : Store
  calls : List UpstreamCall
  job : Option ProvisionJob := none
deriving DecidableEq

/-- The 422 body used by all three pending-operation gates. -/
def concurrencyMsg : String :=
  "Another operation for this service instance is in progress"

/-- `res.status(n).json(\x7bdescription\x7d)`. -/
def respD (status : Nat) (description : String) : HttpResponse :=
  { status := status, description := some description }

/-- The catch-all error response: `res.status(error.status || 500)` with
`\x7bdescription: error.description || error.message\x7d`. -/
def respErr (e : JsError) : HttpResponse :=
  { status := jsOrNat e.status 500, description := some (jsOrD e.description e.message) }

/-- A success response carrying the dashboard URL. -/
def respDash (status : Nat) (cfg : Config) (instanceId : String) : HttpResponse :=
  { status := status, dashboardUrl := some (cfg.dashboardBase ++ "/" ++ instanceId) }

/-- `router.put /service_instances/:instance_id`, with the inline upstream
result passed as `upstream` (consulted only on the synchronous path) and the
operation id precomputed from the timestamp. -/
def provisionPut (cfg : Config) (s : Store) (req : ProvisionReq)
    (upstream : Except JsError RadwareProvisionResult) (now operationId : String) :
    ProvisionOut :=
  if ¬(jsTruthy req.serviceId = true ∧ jsTruthy req.planId = true) then
    { resp := respD 400 "service_id and plan_id are required", store := s, calls := [] }
  else
    let service_id := req.serviceId.getD ""
    let plan_id := req.planId.getD ""
    match getInstance s req.instanceId with
    | some existingInstance =>
      if existingInstance.serviceId = service_id ∧ existingInstance.planId = plan_id then
        { resp := respDash 200 cfg req.instanceId, store := s, calls := [] }
      else
        { resp := respD 409 "Instance already exists with different attributes",
          store := s, calls := [] }
    | none =>
      if hasPendingOperation s req.instanceId then
        { resp := respD 422 concurrencyMsg, store := s, calls := [] }
      else if cfg.enableAsync ∧ req.acceptsIncomplete then
        let s' := setOperation s req.instanceId operationId
          { type := "provision", state := OpState.inProgress,
            description := some "Provisioning service instance" } now
        let j : ProvisionJob :=
          { operationId := operationId, instanceId := req.instanceId,
            serviceId := service_id, planId := plan_id,
            context := req.context, parameters := req.parameters }
        { resp := { status := 202, operation := some operationId },
          store := s', calls := [], job := some j }
      else if cfg.enableAsync ∧ ¬req.acceptsIncomplete then
        let r422 : HttpResponse :=
          { status := 422, error := some "AsyncRequired",
            description := some "This service plan requires client support for asynchronous service operations." }
        { resp := r422, store := s, calls := [] }
      else
        let call := UpstreamCall.createAccountOrService req.instanceId plan_id req.parameters
        match upstream with
        | .error e =>
          { resp := respErr e, store := s, calls := [call] }
        | .ok r =>
          match createInstance s req.instanceId
              { serviceId := service_id, planId := plan_id, context := req.context,
                parameters := req.parameters, accountId := some r.accountId,
                radwareServiceId := some r.serviceId } now with
          | .ok s' =>
            { resp := respDash 201 cfg req.instanceId, store := s', calls := [call] }
          | .error msg =>
            { resp := respD 500 msg, store := s, calls := [call] }

/-- The detached async provision job (the `setTimeout` closure): performs the
upstream create-account + create-service sequence, then materializes the
instance and marks the operation, or marks it failed. -/
def runProvisionJob (s : Store) (j : ProvisionJob)
    (upstream : Except JsError RadwareProvisionResult) (now : String) :
    Store × List UpstreamCall :=
  let call := UpstreamCall.createAccountOrService j.instanceId j.planId j.parameters
  match upstream with
  | .error e =>
    (updateOperationD s j.operationId OpState.failed
      (some (jsOrD e.description e.message)) now, [call])
  | .ok r =>
    match createInstance s j.instanceId
        { serviceId := j.serviceId, planId := j.planId, context := j.context,
          parameters := j.parameters, accountId := some r.accountId,
          radwareServiceId := some r.serviceId } now with
    | .ok s' =>
      (updateOperationD s' j.operationId OpState.succeeded
        (some "Service instance provisioned successfully") now, [call])
    | .error msg =>
      (updateOperationD s j.operationId OpState.failed (some msg) now, [call])

/-- JS object spread merge of two bags: keys of `b` win over keys of `a`
(`mfind`-semantics; key order is not observable through `mfind`). -/
def bagMerge (a b : Bag) : Bag := b ++ a

/-- An update request (PATCH /v2/service_instances/:instance_id). -/
structure UpdateReq where
  instanceId : String
  serviceId : Option String := none
  planId : Option String := none
  context : Option Bag := none
  parameters : Option Bag := none
  previousValues : Option Bag := none
deriving DecidableEq

/-- Output of the PATCH / bind / unbind handlers (no detached job). -/
structure SyncOut where
  resp : HttpResponse
  store : Store
  calls : List UpstreamCall
deriving DecidableEq

/-- The updates object the PATCH route passes to `updateInstance`: plan kept
when absent, context kept when absent, and the parameters bag merged
key-by-key (request keys win). -/
def patchMergeUpd (req : UpdateReq) (inst : ServiceInstance) : InstanceUpdate :=
  { planId := some (jsOrD req.planId inst.planId),
    context := (match req.context with
      | some c => some c
      | none => inst.context),
    parameters := some (bagMerge (inst.parameters.getD []) (req.parameters.getD [])) }

/-- `router.patch /service_instances/:instance_id`: plan changes go upstream
first (using the stored Radware service id), then local state is merged.
`planUpdate` is the result of the upstream `updateServicePlan` call, consulted
only when a plan change is requested. -/
def patchUpdate (s : Store) (req : UpdateReq) (planUpdate : Except JsError Unit)
    (now : String) : SyncOut :=
  match getInstance s req.instanceId with
  | none => { resp := respD 404 "Service instance not found", store := s, calls := [] }
  | some inst =>
    if hasPendingOperation s req.instanceId then
      { resp := respD 422 concurrencyMsg, store := s, calls := [] }
    else
      let upd : InstanceUpdate := patchMergeUpd req inst
      let merge : Store → SyncOut → SyncOut := fun st out =>
        match updateInstance st req.instanceId upd now with
        | .ok s' => { out with resp := { status := 200 }, store := s' }
        | .error msg => { out with resp := respD 500 msg, store := st }
      if jsTruthy req.planId = true ∧ req.planId.getD "" ≠ inst.planId then
        let radwareServiceId : Option String :=
          if jsTruthy inst.radwareServiceId then inst.radwareServiceId
          else if inst.serviceId ≠ "" then some inst.serviceId
          else none
        match radwareServiceId with
        | none =>
          { resp := respD 500 "Missing Radware service id on instance record",
            store := s, calls := [] }
        | some rsid =>
          let call := UpstreamCall.updateServicePlan rsid (req.planId.getD "")
            (req.parameters.getD [])
          match planUpdate with
          | .error e => { resp := respErr e, store := s, calls := [call] }
          | .ok _ => merge s { resp := { status := 200 }, store := s, calls := [call] }
      else
        merge s { resp := { status := 200 }, store := s, calls := [] }

/-- A deprovision request (DELETE /v2/service_instances/:instance_id with
query parameters). -/
structure DeprovisionReq where
  instanceId : String
  serviceId : Option String := none
  planId : Option String := none
  acceptsIncomplete : Bool := false
deriving DecidableEq

/-- What the detached async deprovision job closure captures. -/
structure DeprovisionJob where
  operationId : String
  instanceId : String
  accountId : Option String
  radwareServiceId : Option String
deriving DecidableEq

/-- Output of the deprovision handler. -/
structure DeprovisionOut where
  resp : HttpResponse
  store : Store
  calls : List UpstreamCall
  job : Option DeprovisionJob := none
deriving DecidableEq

/-- `router.delete /service_instances/:instance_id`. -/
def deprovisionDelete (cfg : Config) (s : Store) (req : DeprovisionReq)
    (upstream : Except JsError Unit) (now operationId : String) : DeprovisionOut :=
  if ¬(jsTruthy req.serviceId = true ∧ jsTruthy req.planId = true) then
    { resp := respD 400 "service_id and plan_id are required query parameters",
      store := s, calls := [] }
  else
    match getInstance s req.instanceId with
    | none => { resp := { status := 410 }, store := s, calls := [] }
    | some inst =>
      if inst.serviceId ≠ req.serviceId.getD "" ∨ inst.planId ≠ req.planId.getD "" then
        { resp := respD 409 "Mismatched service_id/plan_id for this instance",
          store := s, calls := [] }
      else if hasPendingOperation s req.instanceId then
        { resp := respD 422 concurrencyMsg, store := s, calls := [] }
      else if cfg.enableAsync ∧ req.acceptsIncomplete then
        let s' := setOperation s req.instanceId operationId
          { type := "deprovision", state := OpState.inProgress,
            description := some "Deprovisioning service instance" } now
        let j : DeprovisionJob :=
          { operationId := operationId, instanceId := req.instanceId,
            accountId := inst.accountId, radwareServiceId := inst.radwareServiceId }
        { resp := { status := 202, operation := some operationId },
          store := s', calls := [], job := some j }
      else
        let call := UpstreamCall.deleteAccountOrService inst.accountId inst.radwareServiceId
        match upstream with
        | .error e => { resp := respErr e, store := s, calls := [call] }
        | .ok _ =>
          let s' := (deleteInstance s req.instanceId).1
          { resp := { status := 200 }, store := s', calls := [call] }

/-- The detached async deprovision job (the `setTimeout` closure). -/
def runDeprovisionJob (s : Store) (j : DeprovisionJob)
    (upstream : Except JsError Unit) (now : String) : Store × List UpstreamCall :=
  let call := UpstreamCall.deleteAccountOrService j.accountId j.radwareServiceId
  match upstream with
  | .error e =>
    (updateOperationD s j.operationId OpState.failed
      (some (jsOrD e.description e.message)) now, [call])
  | .ok _ =>
    let s' := (deleteInstance s j.instanceId).1
    (updateOperationD s' j.operationId OpState.succeeded
      (some "Service instance deprovisioned successfully") now, [call])

/-- A bind request (PUT .../service_bindings/:binding_id). -/
structure BindReq where
  instanceId : String
  bindingId : String
  serviceId : Option String := none
  planId : Option String := none
  bindResource : Option Bag := none
  parameters : Option Bag := none
deriving DecidableEq

/-- `router.put /service_instances/:instance_id/service_bindings/:binding_id`.
`upstream` is the result of `createContactUser`, consulted only after the
email check passed. -/
def bindPut (s : Store) (req : BindReq) (upstream : Except JsError ContactUser)
    (now : String) : SyncOut :=
  if ¬(jsTruthy req.serviceId = true ∧ jsTruthy req.planId = true) then
    { resp := respD 400 "service_id and plan_id are required", store := s, calls := [] }
  else
    match getInstance s req.instanceId with
    | none => { resp := respD 404 "Service instance not found", store := s, calls := [] }
    | some inst =>
      match getBinding s req.bindingId with
      | some existingBinding =>
        if existingBinding.serviceId = req.serviceId.getD "" ∧
            existingBinding.planId = req.planId.getD "" then
          { resp := { status := 200, credentials := some existingBinding.credentials },
            store := s, calls := [] }
        else
          { resp := respD 409 "Binding already exists with different attributes",
            store := s, calls := [] }
      | none =>
        let email := req.parameters.bind (fun ps => mfind ps "email")
        if ¬(jsTruthy email = true) then
          let r422 : HttpResponse :=
            { status := 422,
              error := some "RequiresApp",
              description := some "This service requires email parameter for creating contact user" }
          { resp := r422, store := s, calls := [] }
        else
          let em := email.getD ""
          let call := UpstreamCall.createContactUser inst.accountId em req.parameters
          match upstream with
          | .error e => { resp := respErr e, store := s, calls := [call] }
          | .ok contactUser =>
            let credentials : Credentials :=
              { userId := contactUser.id, email := contactUser.email,
                accountId := inst.accountId }
            match createBinding s req.instanceId req.bindingId
                { serviceId := req.serviceId.getD "", planId := req.planId.getD "",
                  bindResource := req.bindResource, parameters := req.parameters,
                  credentials := credentials, radwareUserId := contactUser.id } now with
            | .ok s' =>
              { resp := { status := 201, credentials := some credentials },
                store := s', calls := [call] }
            | .error msg =>
              { resp := respD 500 msg, store := s, calls := [call] }

/-! ### Fixtures and well-formedness -/

def attemptRetryable (oracle : Nat → Attempt) (n : Nat) : Bool :=
  match oracle n with
  | .ok _ => false
  | .fail r => isRetryableError r

def makeRequestSpecP (oracle : Nat → Attempt) (retries rc : Nat) : Prop :=
    1 ≤ (makeRequest oracle retries rc).attempts ∧
    (makeRequest oracle retries rc).attempts ≤ retries - rc + 1 ∧
    (makeRequest oracle retries rc).delays =
      (List.range ((makeRequest oracle retries rc).attempts - 1)).map
        (fun n => min (1000 * 2 ^ (rc + n)) 10000) ∧
    (∀ k, k < (makeRequest oracle retries rc).attempts - 1 →
      attemptRetryable oracle (rc + k) = true)

def cfgSyncW : Config := { enableAsync := false, dashboardBase := "https://dash.example.com" }

def instW : ServiceInstance :=
  { serviceId := "svc", planId := "standard", context := none, parameters := none,
    accountId := some "acc-1", radwareServiceId := some "rw-1",
    createdAt := "t0", updatedAt := "t0" }

def storeW : Store := { emptyStore with instances := mset emptyStore.instances "i1" instW }

def reqMatchW : ProvisionReq :=
  { instanceId := "i1", serviceId := some "svc", planId := some "standard" }

def cfgAsyncW : Config := { enableAsync := true, dashboardBase := "https://dash.example.com" }

def reqAsyncW : ProvisionReq :=
  { instanceId := "i2", serviceId := some "svc", planId := some "standard",
    acceptsIncomplete := true }

def uW : Option UpstreamResponse := some { status := 500 }

def bindReqW : BindReq :=
  { instanceId := "i1", bindingId := "b1", serviceId := some "svc",
    planId := some "standard", parameters := some [("email", "a@b.example")] }

def s8 : Store :=
  match createInstance emptyStore "i8"
      { serviceId := "s", planId := "p", parameters := some [("a", "1")] } "t0" with
  | .ok s => s
  | .error _ => emptyStore

def StoreWF (s : Store) : Prop :=
  (s.bindings.map Prod.fst).Nodup ∧
  (s.operations.map Prod.fst).Nodup ∧
  (s.instanceOps.map Prod.fst).Nodup ∧
  (∀ p ∈ s.operations, p.1 ∈ (mfind s.instanceOps p.2.instanceId).getD []) ∧
  (∀ q ∈ s.instanceOps, ∀ opId ∈ q.2,
    ∃ p ∈ s.operations, p.1 = opId ∧ p.2.instanceId = q.1) ∧
  (∀ iid ∈ s.pendingOperations,
    ∃ p ∈ s.operations, p.2.instanceId = iid ∧ p.2.state = OpState.inProgress) ∧
  (∀ p ∈ s.operations, p.2.state = OpState.inProgress →
    p.2.instanceId ∈ s.pendingOperations)

def bindDataW : BindingData :=
  { serviceId := "svc", planId := "standard",
    credentials := { userId := "u0", email := "e0@x.example", accountId := some "acc-1" },
    radwareUserId := "u0" }

def storeDelW : Store :=
  let s0 := (createInstance emptyStore "iD" { serviceId := "svc", planId := "standard" } "t0").toOption.getD emptyStore
  let s1 := (createBinding s0 "iD" "b1" bindDataW "t1").toOption.getD s0
  let s2 := setOperation s1 "iD" "opA"
    { type := "provision", state := OpState.succeeded, description := none } "t2"
  setOperation s2 "iD" "opB"
    { type := "deprovision", state := OpState.inProgress, description := none } "t3"

def mutsCE : List Mut :=
  [Mut.set "i" "op1" { type := "provision", state := OpState.inProgress } "t0",
   Mut.set "i" "op1" { type := "provision", state := OpState.succeeded } "t1"]

def mutsW : List Mut :=
  [Mut.set "i1" "p1" { type := "provision", state := OpState.inProgress } "t0",
   Mut.upd "p1" OpState.succeeded (some "done") "t1"]

def opCRec : Operation :=
  { instanceId := "i1", type := "deprovision", state := OpState.inProgress,
    description := some "Deprovisioning service instance",
    createdAt := "t1", updatedAt := "t1" }

def c1Store : Store :=
  setOperation storeW "i1" "opC"
    { type := "deprovision", state := OpState.inProgress,
      description := some "Deprovisioning service instance" } "t1"

/-! ### Theorems -/

theorem mfind_mdel {α : Type} (m : List (String × α)) (k k' : String) :
    mfind (mdel m k) k' = if k = k' then none else mfind m k' := by
  induction m with
  | nil => simp [mdel, mfind]
  | cons p rest ih =>
    rcases p with ⟨p1, p2⟩
    by_cases hp : p1 = k
    · subst hp
      by_cases hk : p1 = k'
      · subst hk
        simp [mdel, mfind, ih]
      · simp [mdel, mfind, ih, hk]
    · by_cases hk : k = k'
      · subst hk
        simp [mdel, mfind, ih, hp]
      · by_cases hpk : p1 = k'
        · subst hpk
          simp [mdel, mfind, ih, hp, hk]
        · simp [mdel, mfind, ih, hp, hk, hpk]

theorem mfind_mdel_self {α : Type} (m : List (String × α)) (k : String) :
    mfind (mdel m k) k = none := by
  simp [mfind_mdel]

theorem mfind_mdel_ne {α : Type} (m : List (String × α)) (k k' : String)
    (h : k ≠ k') : mfind (mdel m k) k' = mfind m k' := by
  simp [mfind_mdel, h]

theorem mfind_mset_self {α : Type} (m : List (String × α)) (k : String) (v : α) :
    mfind (mset m k v) k = some v := by
  simp [mset, mfind]

theorem mfind_mset_ne {α : Type} (m : List (String × α)) (k k' : String) (v : α)
    (h : k ≠ k') : mfind (mset m k v) k' = mfind m k' := by
  simp [mset, mfind, h, mfind_mdel]

theorem mfind_mset {α : Type} (m : List (String × α)) (k k' : String) (v : α) :
    mfind (mset m k v) k' = if k = k' then some v else mfind m k' := by
  by_cases h : k = k'
  · subst h; simp [mfind_mset_self]
  · simp [mfind_mset_ne m k k' v h, h]

theorem makeRequest_spec (oracle : Nat → Attempt) (retries : Nat) (rc : Nat) :
    makeRequestSpecP oracle retries rc := by
  refine makeRequest.induct oracle retries (makeRequestSpecP oracle retries) ?_ ?_ ?_ rc
  · intro x d hd
    unfold makeRequestSpecP
    unfold makeRequest
    rw [hd]
    dsimp only
    refine ⟨le_refl _, by omega, by simp, ?_⟩
    intro k hk
    simp at hk
  · intro x response hresp h ih
    unfold makeRequestSpecP at ih ⊢
    unfold makeRequest
    rw [hresp]
    dsimp only
    rw [dif_pos h]
    obtain ⟨ih1, ih2, ih3, ih4⟩ := ih
    refine ⟨by simp, by simp; omega, ?_, ?_⟩
    · dsimp only
      rw [Nat.add_sub_cancel]
      rw [ih3]
      have hA : (makeRequest oracle retries (x + 1)).attempts = ((makeRequest oracle retries (x + 1)).attempts - 1) + 1 := by omega
      conv_rhs => rw [hA]
      rw [List.range_succ_eq_map]
      simp only [List.map_cons, List.map_map]
      refine List.cons_eq_cons.mpr ⟨by simp, ?_⟩
      apply List.map_congr_left
      intro a _
      simp only [Function.comp_apply]
      have hxa : x + 1 + a = x + (a + 1) := by omega
      rw [hxa]
    · intro k hk
      simp only [] at hk
      match k with
      | 0 =>
        simp only [Nat.add_zero]
        unfold attemptRetryable
        rw [hresp]
        exact h.2
      | k' + 1 =>
        have hx : x + (k' + 1) = (x + 1) + k' := by omega
        rw [hx]
        apply ih4
        omega
  · intro x response hresp h
    unfold makeRequestSpecP
    unfold makeRequest
    rw [hresp]
    dsimp only
    rw [dif_neg h]
    refine ⟨le_refl _, by dsimp only; omega, by simp, ?_⟩
    intro k hk
    simp at hk

/-- C10: the request executor performs at most 1 + retries attempts
(default retries = 3); a failed attempt is retried only when there was no
response or the status is ≥ 500 or equals 408/429; the delay before retry
number n+1 is min(1000*2^n, 10000); a non-retryable failure throws the
mapped error immediately after a single attempt. -/
theorem makeRequest_retry_policy (oracle : Nat → Attempt) (retries : Nat) :
    (makeRequest oracle retries 0).attempts ≤ 1 + retries ∧
    (makeRequest oracle retries 0).delays =
      (List.range ((makeRequest oracle retries 0).attempts - 1)).map
        (fun n => min (1000 * 2 ^ n) 10000) ∧
    (∀ k, k < (makeRequest oracle retries 0).attempts - 1 →
      attemptRetryable oracle k = true) ∧
    (∀ resp, oracle 0 = Attempt.fail resp → isRetryableError resp = false →
      makeRequest oracle retries 0 =
        { result := Except.error (mapError resp), attempts := 1, delays := [] }) ∧
    (∀ (s : Nat) (m : Option String), 400 ≤ s → s < 500 → s ≠ 408 → s ≠ 429 →
      isRetryableError (some { status := s, message := m }) = false) ∧
    radwareRetriesDefault = 3 := by
  obtain ⟨h1, h2, h3, h4⟩ := makeRequest_spec oracle retries 0
  refine ⟨by omega, by simpa using h3, ?_, ?_, ?_, rfl⟩
  · intro k hk
    simpa using h4 k hk
  · intro resp hfail hnr
    unfold makeRequest
    rw [hfail]
    dsimp only
    rw [dif_neg (by simp [hnr])]
  · intro s m hs1 hs2 hs3 hs4
    unfold isRetryableError
    simp only [Bool.or_eq_false_iff, decide_eq_false_iff_not]
    omega

theorem makeRequest_retry_policy_witness :
    makeRequest (fun _ => Attempt.fail (some { status := 404 })) 3 0 =
      { result := Except.error (mapError (some { status := 404 })), attempts := 1,
        delays := [] } :=
  (makeRequest_retry_policy (fun _ => Attempt.fail (some { status := 404 })) 3).2.2.2.1
    (some { status := 404 }) rfl (by decide)

/-- C5: the upstream error mapping is exactly: no response → 502,
400 → 400, 401 → 502, 403 → 502, 404 → 410, 409 → 409, 422 → 422,
any other status → 502; in particular 401/403 are never surfaced with a
4xx status. -/
theorem mapError_taxonomy :
    (mapError none).status = some 502 ∧
    (∀ r : UpstreamResponse, (mapError (some r)).status = some (
      if r.status = 400 then 400
      else if r.status = 401 then 502
      else if r.status = 403 then 502
      else if r.status = 404 then 410
      else if r.status = 409 then 409
      else if r.status = 422 then 422
      else 502)) ∧
    (∀ r : UpstreamResponse, r.status = 401 ∨ r.status = 403 →
      (mapError (some r)).status = some 502) := by
  refine ⟨rfl, ?_, ?_⟩
  · intro r
    unfold mapError
    dsimp only
    split_ifs <;> rfl
  · rintro r (h | h) <;> simp [mapError, h]

theorem mapError_taxonomy_witness :
    (mapError (some { status := 401 })).status = some 502 :=
  mapError_taxonomy.2.2 { status := 401 } (Or.inl rfl)

/-- C3: a provision request for an already-stored instance whose
service_id and plan_id equal the stored values returns 200 with
dashboard_url = dashboardBase ++ "/" ++ instanceId, no upstream call and
no store mutation; if service_id or plan_id differs the response is 409,
again with no upstream call and no store mutation. -/
theorem provision_idempotency (cfg : Config) (s : Store) (req : ProvisionReq)
    (upstream : Except JsError RadwareProvisionResult) (now operationId : String)
    (inst : ServiceInstance)
    (hsid : jsTruthy req.serviceId = true)
    (hpid : jsTruthy req.planId = true)
    (hinst : getInstance s req.instanceId = some inst) :
    (inst.serviceId = req.serviceId.getD "" ∧ inst.planId = req.planId.getD "" →
      provisionPut cfg s req upstream now operationId =
        { resp := { status := 200, dashboardUrl := some (cfg.dashboardBase ++ "/" ++ req.instanceId) },
          store := s, calls := [], job := none }) ∧
    (¬(inst.serviceId = req.serviceId.getD "" ∧ inst.planId = req.planId.getD "") →
      provisionPut cfg s req upstream now operationId =
        { resp := { status := 409, description := some "Instance already exists with different attributes" },
          store := s, calls := [], job := none }) := by
  unfold provisionPut
  rw [if_neg (by simp [hsid, hpid])]
  rw [hinst]
  dsimp only
  constructor
  · intro hmatch
    rw [if_pos hmatch]
    rfl
  · intro hmatch
    rw [if_neg hmatch]
    rfl

theorem provision_idempotency_witness :
    getInstance storeW "i1" = some instW ∧
    provisionPut cfgSyncW storeW reqMatchW (.ok { accountId := "a", serviceId := "r" }) "t1" "op1" =
      { resp := { status := 200, dashboardUrl := some (cfgSyncW.dashboardBase ++ "/" ++ "i1") },
        store := storeW, calls := [], job := none } :=
  ⟨by decide,
   (provision_idempotency cfgSyncW storeW reqMatchW (.ok { accountId := "a", serviceId := "r" })
      "t1" "op1" instW (by decide) (by decide) (by decide)).1 (by decide)⟩

theorem updateOperationD_notFound (s : Store) (opId : String) (st : OpState)
    (desc : Option String) (now : String)
    (h : mfind s.operations opId = none) :
    updateOperationD s opId st desc now = s := by
  unfold updateOperationD updateOperation
  rw [h]

theorem updateOperationD_found (s : Store) (opId : String) (st : OpState)
    (desc : Option String) (now : String) (op : Operation)
    (h : mfind s.operations opId = some op) :
    ∃ pend : List String,
      updateOperationD s opId st desc now =
        { s with
          operations := mset s.operations opId (updatedOp op st desc now),
          pendingOperations := pend } := by
  unfold updateOperationD updateOperation
  rw [h]
  dsimp only
  by_cases hterm : st = OpState.succeeded ∨ st = OpState.failed
  · rw [if_pos hterm]
    rcases hq : mfind s.instanceOps op.instanceId with _ | ids
    · exact ⟨setDel s.pendingOperations op.instanceId, rfl⟩
    · dsimp only
      by_cases hip : anyInProgressIn (mset s.operations opId (updatedOp op st desc now)) ids = true
      · rw [if_pos hip]
        exact ⟨s.pendingOperations, rfl⟩
      · rw [if_neg hip]
        exact ⟨setDel s.pendingOperations op.instanceId, rfl⟩
  · rw [if_neg hterm]
    exact ⟨s.pendingOperations, rfl⟩

/-- C2: a service-instance record is created only if the upstream
create-account/create-service sequence succeeded. On upstream failure the
synchronous path returns the mapped error status and description and the
store is unchanged; the asynchronous path answers 202, and the provision
job marks the registered operation failed with the mapped description and
creates no instance record. -/
theorem provision_no_partial_state (cfg : Config) (s : Store) (req : ProvisionReq)
    (u : Option UpstreamResponse) (now now2 operationId : String)
    (hsid : jsTruthy req.serviceId = true)
    (hpid : jsTruthy req.planId = true)
    (hnone : getInstance s req.instanceId = none)
    (hnp : hasPendingOperation s req.instanceId = false) :
    (cfg.enableAsync = false →
      (provisionPut cfg s req (.error (mapError u)) now operationId).resp =
        { status := jsOrNat (mapError u).status 500, description := some (jsOrD (mapError u).description (mapError u).message) } ∧
      (provisionPut cfg s req (.error (mapError u)) now operationId).store = s) ∧
    (cfg.enableAsync = true → req.acceptsIncomplete = true →
      (provisionPut cfg s req (.error (mapError u)) now operationId).resp =
        { status := 202, operation := some operationId } ∧
      (∃ j, (provisionPut cfg s req (.error (mapError u)) now operationId).job = some j ∧
        (getInstance (runProvisionJob
            (provisionPut cfg s req (.error (mapError u)) now operationId).store
            j (.error (mapError u)) now2).1 req.instanceId = none ∧
         (runProvisionJob
            (provisionPut cfg s req (.error (mapError u)) now operationId).store
            j (.error (mapError u)) now2).1.instances = s.instances ∧
         getOperation (runProvisionJob
            (provisionPut cfg s req (.error (mapError u)) now operationId).store
            j (.error (mapError u)) now2).1 operationId = some
           { instanceId := req.instanceId, type := "provision", state := OpState.failed, description := some (jsOrD (mapError u).description (mapError u).message), createdAt := now, updatedAt := now2 }))) := by
  unfold provisionPut
  rw [if_neg (by simp [hsid, hpid])]
  rw [hnone]
  dsimp only
  rw [if_neg (by simp [hnp])]
  constructor
  · intro hasync
    rw [if_neg (by simp [hasync])]
    rw [if_neg (by simp [hasync])]
    exact ⟨rfl, rfl⟩
  · intro hasync hacc
    rw [if_pos (show cfg.enableAsync ∧ req.acceptsIncomplete = true by simp [hasync, hacc])]
    dsimp only
    refine ⟨rfl, ?_⟩
    refine ⟨_, rfl, ?_⟩
    unfold runProvisionJob
    dsimp only
    have hfind : mfind (setOperation s req.instanceId operationId
        { type := "provision", state := OpState.inProgress,
          description := some "Provisioning service instance" } now).operations operationId =
        some { instanceId := req.instanceId, type := "provision", state := OpState.inProgress, description := some "Provisioning service instance", createdAt := now, updatedAt := now } := by
      unfold setOperation
      dsimp only
      exact mfind_mset_self _ _ _
    obtain ⟨pend, hp⟩ := updateOperationD_found _ _ OpState.failed
      (some (jsOrD (mapError u).description (mapError u).message)) now2 _ hfind
    rw [hp]
    refine ⟨?_, ?_, ?_⟩
    · show mfind _ req.instanceId = none
      unfold setOperation
      dsimp only
      exact hnone
    · unfold setOperation
      dsimp only
    · show mfind _ operationId = _
      dsimp only
      rw [mfind_mset_self]
      rfl

theorem provision_no_partial_state_witness :
    (provisionPut cfgAsyncW emptyStore reqAsyncW (.error (mapError uW)) "t1" "op-1").resp =
      { status := 202, operation := some "op-1" } :=
  ((provision_no_partial_state cfgAsyncW emptyStore reqAsyncW uW "t1" "t2" "op-1"
    (by decide) (by decide) (by decide) (by decide)).2 rfl rfl).1

/-- C4: on a PATCH of an existing instance with no pending operation
whose plan_id is present and differs from the stored planId, the upstream
plan-change is invoked exactly once with the instance's stored upstream
(Radware) service identifier and the new plan id; if it fails the
response is the mapped error and the stored instance is unchanged. If
plan_id is absent or equal to the stored planId, no upstream plan-change
call is made. -/
theorem patch_plan_change_upstream_first (s : Store) (req : UpdateReq)
    (e : JsError) (now : String) (inst : ServiceInstance) (rsid : String)
    (hinst : getInstance s req.instanceId = some inst)
    (hnp : hasPendingOperation s req.instanceId = false)
    (hrsid : inst.radwareServiceId = some rsid)
    (hrsid' : rsid ≠ "") :
    (∀ pid (pu : Except JsError Unit), req.planId = some pid → pid ≠ "" → pid ≠ inst.planId →
      (patchUpdate s req pu now).calls =
        [UpstreamCall.updateServicePlan rsid pid (req.parameters.getD [])]) ∧
    (∀ pid, req.planId = some pid → pid ≠ "" → pid ≠ inst.planId →
      (patchUpdate s req (.error e) now).resp = respErr e ∧
      (patchUpdate s req (.error e) now).store = s) ∧
    ((jsTruthy req.planId = false ∨ req.planId = some inst.planId) →
      ∀ pu, (patchUpdate s req pu now).calls = []) := by
  have hplanpos : ∀ pid, req.planId = some pid → pid ≠ "" → pid ≠ inst.planId →
      (jsTruthy req.planId = true ∧ req.planId.getD "" ≠ inst.planId) := by
    intro pid hp h1 h2
    rw [hp]
    constructor
    · simp [jsTruthy, h1]
    · simpa using h2
  constructor
  · intro pid pu hp h1 h2
    unfold patchUpdate
    rw [hinst]
    dsimp only
    rw [if_neg (by simp [hnp])]
    rw [if_pos (hplanpos pid hp h1 h2)]
    rw [hrsid]
    rw [if_pos (by simp [jsTruthy, hrsid'])]
    dsimp only
    rw [hp]
    cases pu with
    | error e' => rfl
    | ok v =>
      dsimp only
      split
      · rfl
      · rfl
  constructor
  · intro pid hp h1 h2
    unfold patchUpdate
    rw [hinst]
    dsimp only
    rw [if_neg (by simp [hnp])]
    rw [if_pos (hplanpos pid hp h1 h2)]
    rw [hrsid]
    rw [if_pos (by simp [jsTruthy, hrsid'])]
    dsimp only
    exact ⟨rfl, rfl⟩
  · intro hno pu
    unfold patchUpdate
    rw [hinst]
    dsimp only
    rw [if_neg (by simp [hnp])]
    rw [if_neg ?hcond]
    case hcond =>
      rcases hno with h | h
      · simp [h]
      · rw [h]
        simp
    split
    · rfl
    · rfl

theorem bind_email_counterexample :
    mfind (bindReqW.parameters.getD []) "email" = some "a@b.example" ∧
    (bindPut storeW bindReqW (.ok { id := "u1", email := "other@x.example" }) "t2").resp.status = 201 ∧
    (bindPut storeW bindReqW (.ok { id := "u1", email := "other@x.example" }) "t2").resp.credentials =
      some { userId := "u1", email := "other@x.example", accountId := some "acc-1" } ∧
    "other@x.example" ≠ "a@b.example" := by
  refine ⟨by decide, by decide, by decide, by decide⟩

/-- C9 (corrected): binding with parameters lacking email returns 422
with error code RequiresApp and neither a binding record nor an upstream
contact user is created; with email present the broker calls upstream
create-contact-user once, scoped to the instance's upstream account,
stores the binding and returns 201 — but credentials.email, in the
response and in the stored binding alike, is the email of the contact
user returned by upstream, not necessarily the supplied email (see the
counterexample). -/
theorem bind_requires_email (s : Store) (req : BindReq) (inst : ServiceInstance)
    (cu : ContactUser) (now : String)
    (hsid : jsTruthy req.serviceId = true)
    (hpid : jsTruthy req.planId = true)
    (hinst : getInstance s req.instanceId = some inst)
    (hnobind : getBinding s req.bindingId = none) :
    (∀ up : Except JsError ContactUser,
      jsTruthy (req.parameters.bind (fun ps => mfind ps "email")) = false →
      bindPut s req up now =
        { resp := { status := 422, error := some "RequiresApp", description := some "This service requires email parameter for creating contact user" },
          store := s, calls := [] }) ∧
    (∀ em, req.parameters.bind (fun ps => mfind ps "email") = some em → em ≠ "" →
      (bindPut s req (.ok cu) now).calls =
        [UpstreamCall.createContactUser inst.accountId em req.parameters] ∧
      (bindPut s req (.ok cu) now).resp.status = 201 ∧
      (bindPut s req (.ok cu) now).resp.credentials =
        some { userId := cu.id, email := cu.email, accountId := inst.accountId } ∧
      getBinding (bindPut s req (.ok cu) now).store req.bindingId =
        some { instanceId := req.instanceId, serviceId := req.serviceId.getD "",
               planId := req.planId.getD "", bindResource := req.bindResource,
               parameters := req.parameters,
               credentials := { userId := cu.id, email := cu.email,
                                accountId := inst.accountId },
               radwareUserId := cu.id, createdAt := now } ∧
      ∀ bid, bid ≠ req.bindingId →
        getBinding (bindPut s req (.ok cu) now).store bid = getBinding s bid) := by
  constructor
  · intro up hmail
    unfold bindPut
    rw [if_neg (by simp [hsid, hpid])]
    rw [hinst]
    dsimp only
    rw [hnobind]
    dsimp only
    rw [if_pos (by simp [hmail])]
  · intro em hem hem'
    unfold bindPut
    rw [if_neg (by simp [hsid, hpid])]
    rw [hinst]
    dsimp only
    rw [hnobind]
    dsimp only
    rw [hem]
    rw [if_neg (by simp [jsTruthy, hem'])]
    unfold createBinding
    rw [if_neg (by rw [show mfind s.bindings req.bindingId = none from hnobind]; simp)]
    rw [if_neg (by rw [show mfind s.instances req.instanceId = some inst from hinst]; simp)]
    refine ⟨rfl, rfl, rfl, ?_, ?_⟩
    · exact mfind_mset_self s.bindings req.bindingId _
    · intro bid hbid
      exact mfind_mset_ne s.bindings req.bindingId bid _ (fun h => hbid h.symm)

theorem bind_requires_email_witness :
    (bindPut storeW bindReqW (.ok { id := "u1", email := "a@b.example" }) "t2").calls =
      [UpstreamCall.createContactUser (some "acc-1") "a@b.example" (some [("email", "a@b.example")])] :=
  ((bind_requires_email storeW bindReqW instW { id := "u1", email := "a@b.example" } "t2"
    (by decide) (by decide) (by decide) (by decide)).2 "a@b.example" (by decide) (by decide)).1

theorem mfind_append {α : Type} (l1 l2 : List (String × α)) (k : String) :
    mfind (l1 ++ l2) k =
      (match mfind l1 k with | some v => some v | none => mfind l2 k) := by
  induction l1 with
  | nil => simp [mfind]
  | cons p rest ih =>
    rcases p with ⟨p1, p2⟩
    by_cases h : p1 = k <;> simp [mfind, h, ih]

theorem updateInstance_found (s : Store) (iid : String) (upd : InstanceUpdate)
    (now : String) (cur : ServiceInstance)
    (h : mfind s.instances iid = some cur) :
    updateInstance s iid upd now =
      .ok { s with instances := mset s.instances iid (mergedInstance cur upd now) } := by
  unfold updateInstance
  rw [h]

theorem updateInstance_merge_counterexample :
    ((getInstance s8 "i8").map (fun i => mfind (i.parameters.getD []) "a")) = some (some "1") ∧
    (match updateInstance s8 "i8" { parameters := some [("b", "2")] } "t1" with
     | .ok s' => (getInstance s' "i8").map (fun i => mfind (i.parameters.getD []) "a")
     | .error _ => none) = some none := by
  refine ⟨by decide, by decide⟩

/-- C8 (corrected): updateInstance fails with NotFound when the instance
is absent, and otherwise shallow-merges the given top-level fields and
stamps updatedAt; contrary to the claim, the store replaces the
parameters bag wholesale when one is supplied (see the counterexample) —
the key-by-key parameter merge is performed by the PATCH route, which
passes bagMerge of the stored and request parameters. -/
theorem updateInstance_shallow_merge (s : Store) (iid : String)
    (upd : InstanceUpdate) (now : String) :
    (getInstance s iid = none →
      updateInstance s iid upd now = .error ("Instance " ++ iid ++ " not found")) ∧
    (∀ cur, getInstance s iid = some cur →
      ∃ s', updateInstance s iid upd now = .ok s' ∧
        ∃ cur', getInstance s' iid = some cur' ∧
          cur'.updatedAt = now ∧
          cur'.serviceId = upd.serviceId.getD cur.serviceId ∧
          cur'.planId = upd.planId.getD cur.planId ∧
          cur'.parameters = (match upd.parameters with | some p => some p | none => cur.parameters) ∧
          cur'.context = (match upd.context with | some c => some c | none => cur.context) ∧
          cur'.createdAt = cur.createdAt ∧
          (∀ iid', iid' ≠ iid → getInstance s' iid' = getInstance s iid')) ∧
    (∀ (req : UpdateReq) (inst : ServiceInstance) (k : String),
      getInstance s req.instanceId = some inst →
      hasPendingOperation s req.instanceId = false →
      jsTruthy req.planId = false →
      ∃ inst', getInstance ((patchUpdate s req (.ok ()) now).store) req.instanceId = some inst' ∧
        inst'.parameters = some (bagMerge (inst.parameters.getD []) (req.parameters.getD [])) ∧
        mfind (bagMerge (inst.parameters.getD []) (req.parameters.getD [])) k =
          (match mfind (req.parameters.getD []) k with
           | some v => some v
           | none => mfind (inst.parameters.getD []) k)) := by
  refine ⟨?_, ?_, ?_⟩
  · intro h
    unfold updateInstance
    rw [show mfind s.instances iid = none from h]
  · intro cur h
    refine ⟨_, updateInstance_found s iid upd now cur h, ?_⟩
    refine ⟨mergedInstance cur upd now, ?_, rfl, rfl, rfl, rfl, rfl, rfl, ?_⟩
    · show mfind _ iid = _
      dsimp only
      exact mfind_mset_self _ _ _
    · intro iid' hne
      show mfind _ iid' = mfind _ iid'
      dsimp only
      exact mfind_mset_ne _ _ _ _ (Ne.symm hne)
  · intro req inst k hinst hnp hplan
    unfold patchUpdate
    rw [hinst]
    dsimp only
    rw [if_neg (by simp [hnp])]
    rw [if_neg (by simp [hplan])]
    rw [updateInstance_found s req.instanceId _ now inst hinst]
    dsimp only
    refine ⟨mergedInstance inst (patchMergeUpd req inst) now, ?_, rfl, ?_⟩
    · show mfind _ req.instanceId = _
      dsimp only
      exact mfind_mset_self _ _ _
    · unfold bagMerge
      rw [mfind_append]
      cases mfind (req.parameters.getD []) k <;> rfl

theorem patch_plan_change_upstream_first_witness :
    (patchUpdate storeW { instanceId := "i1", planId := some "enterprise" } (.ok ()) "t2").calls =
      [UpstreamCall.updateServicePlan "rw-1" "enterprise" []] :=
  (patch_plan_change_upstream_first storeW { instanceId := "i1", planId := some "enterprise" }
    (mapError uW) "t2" instW "rw-1" (by decide) (by decide) (by decide) (by decide)).1
    "enterprise" (.ok ()) rfl (by decide) (by decide)

theorem updateInstance_shallow_merge_witness :
    updateInstance s8 "i9" { parameters := some [("c", "3")] } "t1" =
      .error ("Instance " ++ "i9" ++ " not found") :=
  (updateInstance_shallow_merge s8 "i9" { parameters := some [("c", "3")] } "t1").1 (by decide)

theorem mem_of_mfind {α : Type} {m : List (String × α)} {k : String} {v : α}
    (h : mfind m k = some v) : (k, v) ∈ m := by
  induction m with
  | nil => simp [mfind] at h
  | cons p rest ih =>
    rcases p with ⟨p1, p2⟩
    rw [mfind] at h
    by_cases hk : p1 = k
    · rw [if_pos hk] at h
      subst hk
      simp at h
      simp [h]
    · rw [if_neg hk] at h
      simp [ih h]

theorem value_unique_of_nodup {α : Type} {m : List (String × α)} {k : String}
    {v v' : α} (hnd : (m.map Prod.fst).Nodup)
    (h : (k, v) ∈ m) (h' : (k, v') ∈ m) : v = v' := by
  induction m with
  | nil => simp at h
  | cons p rest ih =>
    simp only [List.map_cons, List.nodup_cons] at hnd
    rcases List.mem_cons.mp h with he | hm
    · rcases List.mem_cons.mp h' with he' | hm'
      · rw [← he] at he'
        exact (Prod.mk.injEq _ _ _ _ ▸ he'.symm).2.symm ▸ rfl
      · exfalso
        apply hnd.1
        have : p.1 = k := by rw [← he]
        rw [this]
        exact List.mem_map.mpr ⟨(k, v'), hm', rfl⟩
    · rcases List.mem_cons.mp h' with he' | hm'
      · exfalso
        apply hnd.1
        have : p.1 = k := by rw [← he']
        rw [this]
        exact List.mem_map.mpr ⟨(k, v), hm, rfl⟩
      · exact ih hnd.2 hm hm'

theorem mfind_eq_of_mem_nodup {α : Type} {m : List (String × α)} {k : String}
    {v : α} (hnd : (m.map Prod.fst).Nodup) (h : (k, v) ∈ m) :
    mfind m k = some v := by
  induction m with
  | nil => simp at h
  | cons p rest ih =>
    simp only [List.map_cons, List.nodup_cons] at hnd
    rcases List.mem_cons.mp h with he | hm
    · rw [← he]
      simp [mfind]
    · rw [mfind]
      by_cases hk : p.1 = k
      · exfalso
        apply hnd.1
        rw [hk]
        exact List.mem_map.mpr ⟨(k, v), hm, rfl⟩
      · rw [if_neg hk]
        exact ih hnd.2 hm

theorem mfind_filter_eq_none {α : Type} (m : List (String × α))
    (P : String × α → Bool) (k : String)
    (h : ∀ v, (k, v) ∈ m → P (k, v) = false) :
    mfind (m.filter P) k = none := by
  induction m with
  | nil => rfl
  | cons p rest ih =>
    rw [List.filter_cons]
    by_cases hP : P p = true
    · rw [if_pos hP]
      rw [mfind]
      by_cases hk : p.1 = k
      · exfalso
        have : (k, p.2) ∈ p :: rest := by
          rw [← hk]
          simp
        rw [← hk] at h
        have := h p.2 (by simp)
        rw [this] at hP
        simp at hP
      · rw [if_neg hk]
        exact ih (fun v hv => h v (List.mem_cons_of_mem _ hv))
    · rw [if_neg hP]
      exact ih (fun v hv => h v (List.mem_cons_of_mem _ hv))

theorem mfind_filter_preserve {α : Type} (m : List (String × α))
    (P : String × α → Bool) (k : String) (v : α)
    (hfind : mfind m k = some v) (hP : P (k, v) = true) :
    mfind (m.filter P) k = some v := by
  induction m with
  | nil => simp [mfind] at hfind
  | cons p rest ih =>
    rcases p with ⟨p1, p2⟩
    rw [mfind] at hfind
    by_cases hk : p1 = k
    · rw [if_pos hk] at hfind
      have hv : p2 = v := by simpa using hfind
      subst hv
      subst hk
      rw [List.filter_cons, if_pos hP, mfind, if_pos rfl]
    · rw [if_neg hk] at hfind
      rw [List.filter_cons]
      by_cases hPp : P (p1, p2) = true
      · rw [if_pos hPp, mfind, if_neg hk]
        exact ih hfind
      · rw [if_neg hPp]
        exact ih hfind

theorem mfind_foldl_mdel {α : Type} (ks : List String) (m : List (String × α))
    (k : String) :
    mfind (ks.foldl (fun acc key => mdel acc key) m) k =
      if k ∈ ks then none else mfind m k := by
  induction ks generalizing m with
  | nil => simp
  | cons k0 rest ih =>
    rw [List.foldl_cons]
    rw [ih (mdel m k0)]
    by_cases hk : k ∈ rest
    · simp [hk]
    · rw [if_neg hk]
      rw [mfind_mdel]
      by_cases h0 : k0 = k
      · subst h0
        simp
      · rw [if_neg h0]
        rw [if_neg (by simp [hk, Ne.symm h0])]

theorem mem_mdel {α : Type} {m : List (String × α)} {k' : String}
    {p : String × α} :
    p ∈ mdel m k' ↔ p ∈ m ∧ p.1 ≠ k' := by
  induction m with
  | nil => simp [mdel]
  | cons q rest ih =>
    rcases q with ⟨q1, q2⟩
    rw [mdel]
    by_cases hq : q1 = k'
    · subst hq
      rw [if_pos rfl]
      rw [ih]
      constructor
      · rintro ⟨hm, hne⟩
        exact ⟨List.mem_cons_of_mem _ hm, hne⟩
      · rintro ⟨hm, hne⟩
        rcases List.mem_cons.mp hm with he | hm'
        · exfalso
          apply hne
          rw [he]
        · exact ⟨hm', hne⟩
    · rw [if_neg hq]
      constructor
      · intro hmem
        rcases List.mem_cons.mp hmem with he | hm'
        · refine ⟨by rw [he]; simp, ?_⟩
          rw [he]
          exact hq
        · rcases ih.mp hm' with ⟨hm'', hne⟩
          exact ⟨List.mem_cons_of_mem _ hm'', hne⟩
      · rintro ⟨hm, hne⟩
        rcases List.mem_cons.mp hm with he | hm'
        · rw [he]
          simp
        · exact List.mem_cons_of_mem _ (ih.mpr ⟨hm', hne⟩)

theorem mem_foldl_mdel {α : Type} (ks : List String) (m : List (String × α))
    (p : String × α) :
    p ∈ ks.foldl (fun acc key => mdel acc key) m ↔ p ∈ m ∧ p.1 ∉ ks := by
  induction ks generalizing m with
  | nil => simp
  | cons k0 rest ih =>
    rw [List.foldl_cons, ih]
    rw [mem_mdel]
    constructor
    · rintro ⟨⟨hm, h0⟩, hr⟩
      refine ⟨hm, ?_⟩
      simp only [List.mem_cons]
      rintro (he | hr')
      · exact h0 he
      · exact hr hr'
    · rintro ⟨hm, hks⟩
      simp only [List.mem_cons] at hks
      push_neg at hks
      exact ⟨⟨hm, hks.1⟩, hks.2⟩

theorem mfind_eq_none_iff {α : Type} (m : List (String × α)) (k : String) :
    mfind m k = none ↔ k ∉ m.map Prod.fst := by
  induction m with
  | nil => simp [mfind]
  | cons p rest ih =>
    rcases p with ⟨p1, p2⟩
    rw [mfind]
    by_cases hk : p1 = k
    · subst hk
      simp
    · rw [if_neg hk]
      rw [ih]
      simp [Ne.symm hk]

theorem nodup_keys_mdel {α : Type} (m : List (String × α)) (k : String)
    (h : (m.map Prod.fst).Nodup) : ((mdel m k).map Prod.fst).Nodup := by
  induction m with
  | nil => simp [mdel]
  | cons p rest ih =>
    rcases p with ⟨p1, p2⟩
    simp only [List.map_cons, List.nodup_cons] at h
    rw [mdel]
    by_cases hp : p1 = k
    · rw [if_pos hp]
      exact ih h.2
    · rw [if_neg hp]
      simp only [List.map_cons, List.nodup_cons]
      refine ⟨?_, ih h.2⟩
      intro hmem
      apply h.1
      rcases List.mem_map.mp hmem with ⟨q, hq, hq1⟩
      rcases mem_mdel.mp hq with ⟨hq', _⟩
      exact List.mem_map.mpr ⟨q, hq', hq1⟩

theorem nodup_keys_mset {α : Type} (m : List (String × α)) (k : String) (v : α)
    (h : (m.map Prod.fst).Nodup) : ((mset m k v).map Prod.fst).Nodup := by
  rw [mset]
  simp only [List.map_cons, List.nodup_cons]
  refine ⟨?_, nodup_keys_mdel m k h⟩
  intro hmem
  rcases List.mem_map.mp hmem with ⟨q, hq, hq1⟩
  rcases mem_mdel.mp hq with ⟨_, hne⟩
  exact hne hq1

theorem nodup_keys_foldl_mdel {α : Type} (ks : List String)
    (m : List (String × α)) (h : (m.map Prod.fst).Nodup) :
    ((ks.foldl (fun acc key => mdel acc key) m).map Prod.fst).Nodup := by
  induction ks generalizing m with
  | nil => simpa
  | cons k0 rest ih =>
    rw [List.foldl_cons]
    exact ih _ (nodup_keys_mdel m k0 h)

theorem nodup_keys_filter {α : Type} (m : List (String × α))
    (P : String × α → Bool) (h : (m.map Prod.fst).Nodup) :
    ((m.filter P).map Prod.fst).Nodup := by
  apply List.Nodup.sublist _ h
  exact List.Sublist.map Prod.fst (List.filter_sublist m)

/-- The structural well-formedness every store reachable through the
`MemoryStore` API maintains: duplicate-free map keys, the per-instance
operation index consistent with the operations map in both directions, and the
`pendingOperations` set accurate for the recorded operations. -/

theorem mem_setDel {l : List String} {x y : String} :
    x ∈ setDel l y ↔ x ∈ l ∧ x ≠ y := by
  unfold setDel
  rw [List.mem_filter]
  simp

theorem deleteInstanceFound_operations (s : Store) (iid : String) :
    (deleteInstanceFound s iid).operations =
      (cascadeOps s.operations s.instanceOps iid).1 := by
  unfold deleteInstanceFound
  dsimp only
  split
  · rfl
  · rfl

theorem deleteInstanceFound_bindings (s : Store) (iid : String) :
    (deleteInstanceFound s iid).bindings =
      s.bindings.filter (fun p => decide (p.2.instanceId ≠ iid)) := by
  unfold deleteInstanceFound
  dsimp only
  split
  · rfl
  · rfl

theorem deleteInstanceFound_instances (s : Store) (iid : String) :
    (deleteInstanceFound s iid).instances = mdel s.instances iid := by
  unfold deleteInstanceFound
  dsimp only
  split
  · rfl
  · rfl

theorem cascadeOps_ops_char (s : Store) (iid : String)
    (hnd : (s.operations.map Prod.fst).Nodup)
    (hidx : ∀ p ∈ s.operations, p.1 ∈ (mfind s.instanceOps p.2.instanceId).getD [])
    (hsound : ∀ q ∈ s.instanceOps, ∀ opId ∈ q.2,
      ∃ p ∈ s.operations, p.1 = opId ∧ p.2.instanceId = q.1) :
    ∀ opId op, mfind s.operations opId = some op →
      mfind (cascadeOps s.operations s.instanceOps iid).1 opId =
        (if op.instanceId = iid ∧ op.state.isTerminal = true then none else some op) := by
  intro opId op hop
  unfold cascadeOps
  rcases hids : mfind s.instanceOps iid with _ | ids
  · dsimp only
    have hne : ¬(op.instanceId = iid) := by
      intro he
      have := hidx (opId, op) (mem_of_mfind hop)
      rw [he, hids] at this
      simp at this
    rw [if_neg (by tauto)]
    exact hop
  · dsimp only
    rw [mfind_foldl_mdel]
    by_cases hmem : opId ∈ terminalOpIds s.operations ids
    · rcases List.mem_filter.mp hmem with ⟨hin, hterm⟩
      rw [hop] at hterm
      have hiid : op.instanceId = iid := by
        rcases hsound (iid, ids) (mem_of_mfind hids) opId hin with ⟨p, hp, hp1, hp2⟩
        have : p.2 = op := by
          have hpf : mfind s.operations p.1 = some p.2 := mfind_eq_of_mem_nodup hnd hp
          rw [hp1] at hpf
          rw [hop] at hpf
          simpa using hpf.symm
        rw [← this, hp2]
      rw [if_pos hmem, if_pos ⟨hiid, hterm⟩]
    · rw [if_neg hmem]
      have hcond : ¬(op.instanceId = iid ∧ op.state.isTerminal = true) := by
        rintro ⟨h1, h2⟩
        apply hmem
        apply List.mem_filter.mpr
        refine ⟨?_, ?_⟩
        · have := hidx (opId, op) (mem_of_mfind hop)
          rw [h1, hids] at this
          simpa using this
        · rw [hop]
          exact h2
      rw [if_neg hcond]
      exact hop

theorem cascadeOps_ops_sub (ops : List (String × Operation))
    (idx : List (String × List String)) (iid opId : String) (op : Operation)
    (h : mfind (cascadeOps ops idx iid).1 opId = some op) :
    mfind ops opId = some op := by
  unfold cascadeOps at h
  rcases hids : mfind idx iid with _ | ids
  · rw [hids] at h
    exact h
  · rw [hids] at h
    dsimp only at h
    rw [mfind_foldl_mdel] at h
    by_cases hmem : opId ∈ terminalOpIds ops ids
    · rw [if_pos hmem] at h
      exact absurd h (by simp)
    · rw [if_neg hmem] at h
      exact h

theorem listOps_any_inprogress_char (t : Store) (s : Store) (iid : String)
    (hops : t.operations = (cascadeOps s.operations s.instanceOps iid).1)
    (hidxeq : t.instanceOps = (cascadeOps s.operations s.instanceOps iid).2)
    (hnd : (s.operations.map Prod.fst).Nodup)
    (hidx : ∀ p ∈ s.operations, p.1 ∈ (mfind s.instanceOps p.2.instanceId).getD [])
    (hsound : ∀ q ∈ s.instanceOps, ∀ opId ∈ q.2,
      ∃ p ∈ s.operations, p.1 = opId ∧ p.2.instanceId = q.1) :
    ((listOperationsByInstance t iid).any inProgressB = true) ↔
      ∃ opId op, mfind t.operations opId = some op ∧ op.instanceId = iid ∧
        op.state = OpState.inProgress := by
  unfold listOperationsByInstance
  rw [hops, hidxeq]
  unfold cascadeOps
  rcases hids : mfind s.instanceOps iid with _ | ids
  · dsimp only
    rw [hids]
    constructor
    · intro h
      simp at h
    · rintro ⟨opId, op, hop, hiid, hst⟩
      exfalso
      have := hidx (opId, op) (mem_of_mfind hop)
      rw [hiid, hids] at this
      simp at this
  · dsimp only
    by_cases hrem : (ids.filter (fun opId => decide (opId ∉ terminalOpIds s.operations ids))).isEmpty = true
    · rw [if_pos hrem]
      rw [mfind_mdel_self]
      constructor
      · intro h
        simp at h
      · rintro ⟨opId, op, hop, hiid, hst⟩
        exfalso
        rw [mfind_foldl_mdel] at hop
        by_cases hmem : opId ∈ terminalOpIds s.operations ids
        · rw [if_pos hmem] at hop
          simp at hop
        · rw [if_neg hmem] at hop
          have hin : opId ∈ ids := by
            have := hidx (opId, op) (mem_of_mfind hop)
            rw [hiid, hids] at this
            simpa using this
          have hr : opId ∈ ids.filter (fun opId => decide (opId ∉ terminalOpIds s.operations ids)) :=
            List.mem_filter.mpr ⟨hin, by simpa using hmem⟩
          rw [List.isEmpty_iff] at hrem
          rw [hrem] at hr
          simp at hr
    · rw [if_neg hrem]
      rw [mfind_mset_self]
      rw [List.any_eq_true]
      constructor
      · rintro ⟨o, hoMem, hoIP⟩
        rcases List.mem_filterMap.mp hoMem with ⟨opId, hopIdMem, hfind⟩
        have hIn : opId ∈ ids := (List.mem_filter.mp hopIdMem).1
        have hNotDel : opId ∉ terminalOpIds s.operations ids := by
          have := (List.mem_filter.mp hopIdMem).2
          simpa using this
        have hfind' : mfind s.operations opId = some o := by
          rw [mfind_foldl_mdel, if_neg hNotDel] at hfind
          exact hfind
        have hiid : o.instanceId = iid := by
          rcases hsound (iid, ids) (mem_of_mfind hids) opId hIn with ⟨p, hp, hp1, hp2⟩
          have hpf : mfind s.operations p.1 = some p.2 := mfind_eq_of_mem_nodup hnd hp
          rw [hp1, hfind'] at hpf
          have hpo : o = p.2 := by simpa using hpf
          rw [hpo]
          exact hp2
        refine ⟨opId, o, ?_, hiid, by simpa [inProgressB] using hoIP⟩
        rw [mfind_foldl_mdel, if_neg hNotDel]
        exact hfind'
      · rintro ⟨opId, op, hop, hiid, hst⟩
        have hop' := hop
        rw [mfind_foldl_mdel] at hop'
        by_cases hmem : opId ∈ terminalOpIds s.operations ids
        · rw [if_pos hmem] at hop'
          simp at hop'
        · rw [if_neg hmem] at hop'
          have hin : opId ∈ ids := by
            have := hidx (opId, op) (mem_of_mfind hop')
            rw [hiid, hids] at this
            simpa using this
          refine ⟨op, ?_, by simp [inProgressB, hst]⟩
          apply List.mem_filterMap.mpr
          refine ⟨opId, List.mem_filter.mpr ⟨hin, by simpa using hmem⟩, hop⟩

theorem deleteInstanceFound_pending_char (s : Store) (iid : String)
    (hnd : (s.operations.map Prod.fst).Nodup)
    (hidx : ∀ p ∈ s.operations, p.1 ∈ (mfind s.instanceOps p.2.instanceId).getD [])
    (hsound : ∀ q ∈ s.instanceOps, ∀ opId ∈ q.2,
      ∃ p ∈ s.operations, p.1 = opId ∧ p.2.instanceId = q.1)
    (hpend2 : ∀ p ∈ s.operations, p.2.state = OpState.inProgress →
      p.2.instanceId ∈ s.pendingOperations) :
    (hasPendingOperation (deleteInstanceFound s iid) iid = true ↔
      ∃ opId op, mfind (deleteInstanceFound s iid).operations opId = some op ∧
        op.instanceId = iid ∧ op.state = OpState.inProgress) := by
  rw [deleteInstanceFound_operations]
  unfold hasPendingOperation deleteInstanceFound
  dsimp only
  split
  next hc =>
    have hAny := (listOps_any_inprogress_char _ s iid rfl rfl hnd hidx hsound).mp hc
    constructor
    · intro _
      exact hAny
    · intro _
      rcases hAny with ⟨opId, op, hop, hiid, hst⟩
      have hmemops : mfind s.operations opId = some op :=
        cascadeOps_ops_sub s.operations s.instanceOps iid opId op hop
      have := hpend2 (opId, op) (mem_of_mfind hmemops) hst
      rw [hiid] at this
      simpa using this
  next hc =>
    constructor
    · intro habs
      exfalso
      have : iid ∈ setDel s.pendingOperations iid := by simpa using habs
      exact (mem_setDel.mp this).2 rfl
    · intro hex
      exfalso
      exact hc ((listOps_any_inprogress_char _ s iid rfl rfl hnd hidx hsound).mpr hex)

/-- C6: deleteInstance returns whether the instance existed; when it
existed, afterwards no binding of that instance remains, exactly the
terminal operations of that instance are deleted while every in-progress
operation of the instance is still retrievable via getOperation, and the
pending-operation flag for the instance is recomputed; when it did not
exist the store is returned unchanged. -/
theorem deleteInstance_cascade (s : Store) (iid : String) (hwf : StoreWF s) :
    ((deleteInstance s iid).2 = (getInstance s iid).isSome) ∧
    ((getInstance s iid).isSome = true →
      (∀ bId b, getBinding s bId = some b → b.instanceId = iid →
        getBinding (deleteInstance s iid).1 bId = none) ∧
      (∀ opId op, getOperation s opId = some op → op.instanceId = iid →
        (op.state.isTerminal = true → getOperation (deleteInstance s iid).1 opId = none) ∧
        (op.state = OpState.inProgress →
          getOperation (deleteInstance s iid).1 opId = some op)) ∧
      (∀ opId op, getOperation s opId = some op → op.instanceId ≠ iid →
        getOperation (deleteInstance s iid).1 opId = some op) ∧
      (hasPendingOperation (deleteInstance s iid).1 iid = true ↔
        ∃ opId op, getOperation (deleteInstance s iid).1 opId = some op ∧
          op.instanceId = iid ∧ op.state = OpState.inProgress)) ∧
    (getInstance s iid = none → deleteInstance s iid = (s, false)) := by
  obtain ⟨hndB, hndO, hndI, hidx, hsound, hpend1, hpend2⟩ := hwf
  rcases hex : getInstance s iid with _ | inst
  · have hdel : deleteInstance s iid = (s, false) := by
      unfold deleteInstance
      rw [show mfind s.instances iid = none from hex]
    refine ⟨by rw [hdel]; rfl, ?_, fun _ => hdel⟩
    intro h
    simp at h
  · have hdel : deleteInstance s iid = (deleteInstanceFound s iid, true) := by
      unfold deleteInstance
      rw [show mfind s.instances iid = some inst from hex]
    refine ⟨by rw [hdel]; rfl, ?_, ?_⟩
    · intro _
      refine ⟨?_, ?_, ?_, ?_⟩
      · intro bId b hb hbi
        rw [hdel]
        show mfind (deleteInstanceFound s iid).bindings bId = none
        rw [deleteInstanceFound_bindings]
        apply mfind_filter_eq_none
        intro v hv
        have hvb : v = b := value_unique_of_nodup hndB hv (mem_of_mfind hb)
        subst hvb
        simp [hbi]
      · intro opId op hop hiid
        rw [hdel]
        have hchar := cascadeOps_ops_char s iid hndO hidx hsound opId op hop
        constructor
        · intro hterm
          show mfind (deleteInstanceFound s iid).operations opId = none
          rw [deleteInstanceFound_operations, hchar, if_pos ⟨hiid, hterm⟩]
        · intro hst
          show mfind (deleteInstanceFound s iid).operations opId = some op
          rw [deleteInstanceFound_operations, hchar,
            if_neg (by rw [hst]; simp [OpState.isTerminal])]
      · intro opId op hop hiid
        rw [hdel]
        have hchar := cascadeOps_ops_char s iid hndO hidx hsound opId op hop
        show mfind (deleteInstanceFound s iid).operations opId = some op
        rw [deleteInstanceFound_operations, hchar, if_neg (by tauto)]
      · rw [hdel]
        exact deleteInstanceFound_pending_char s iid hndO hidx hsound hpend2
    · intro h
      exact absurd h (by simp)

theorem deleteInstance_cascade_witness :
    getBinding (deleteInstance storeDelW "iD").1 "b1" = none :=
  ((deleteInstance_cascade storeDelW "iD" (by unfold StoreWF; decide)).2.1 (by decide)).1 "b1"
    { instanceId := "iD", serviceId := "svc", planId := "standard",
      bindResource := none, parameters := none,
      credentials := { userId := "u0", email := "e0@x.example", accountId := some "acc-1" },
      radwareUserId := "u0", createdAt := "t1" }
    (by decide) (by decide)

theorem mem_mset {α : Type} {m : List (String × α)} {k : String} {v : α}
    {p : String × α} :
    p ∈ mset m k v ↔ p = (k, v) ∨ (p ∈ m ∧ p.1 ≠ k) := by
  rw [mset]
  rw [List.mem_cons]
  rw [mem_mdel]

theorem mem_setAdd {l : List String} {x y : String} :
    x ∈ setAdd l y ↔ x ∈ l ∨ x = y := by
  unfold setAdd
  by_cases h : y ∈ l
  · rw [if_pos h]
    constructor
    · exact Or.inl
    · rintro (hx | hx)
      · exact hx
      · rw [hx]; exact h
  · rw [if_neg h]
    simp

theorem not_mem_key_of_mfind_none {α : Type} {m : List (String × α)}
    {k : String} {v : α} (h : mfind m k = none) : (k, v) ∉ m := by
  intro hmem
  rw [mfind_eq_none_iff] at h
  exact h (List.mem_map.mpr ⟨(k, v), hmem, rfl⟩)

theorem listOps_any_char_general (t : Store) (x : String)
    (hnd : (t.operations.map Prod.fst).Nodup)
    (hidx : ∀ p ∈ t.operations, p.1 ∈ (mfind t.instanceOps p.2.instanceId).getD [])
    (hsound : ∀ q ∈ t.instanceOps, ∀ opId ∈ q.2,
      ∃ p ∈ t.operations, p.1 = opId ∧ p.2.instanceId = q.1) :
    ((listOperationsByInstance t x).any inProgressB = true) ↔
      ∃ opId op, mfind t.operations opId = some op ∧ op.instanceId = x ∧
        op.state = OpState.inProgress := by
  unfold listOperationsByInstance
  rcases hids : mfind t.instanceOps x with _ | ids
  · constructor
    · intro h
      simp at h
    · rintro ⟨opId, op, hop, hiid, hst⟩
      exfalso
      have := hidx (opId, op) (mem_of_mfind hop)
      rw [hiid, hids] at this
      simp at this
  · rw [List.any_eq_true]
    constructor
    · rintro ⟨o, hoMem, hoIP⟩
      rcases List.mem_filterMap.mp hoMem with ⟨opId, hopIdMem, hfind⟩
      have hiid : o.instanceId = x := by
        rcases hsound (x, ids) (mem_of_mfind hids) opId hopIdMem with ⟨p, hp, hp1, hp2⟩
        have hpf : mfind t.operations p.1 = some p.2 := mfind_eq_of_mem_nodup hnd hp
        rw [hp1, hfind] at hpf
        have hpo : o = p.2 := by simpa using hpf
        rw [hpo]
        exact hp2
      exact ⟨opId, o, hfind, hiid, by simpa [inProgressB] using hoIP⟩
    · rintro ⟨opId, op, hop, hiid, hst⟩
      have hin : opId ∈ ids := by
        have := hidx (opId, op) (mem_of_mfind hop)
        rw [hiid, hids] at this
        simpa using this
      exact ⟨op, List.mem_filterMap.mpr ⟨opId, hin, hop⟩, by simp [inProgressB, hst]⟩

theorem anyInProgressIn_char (t : Store) (x : String) (ids : List String)
    (hids : mfind t.instanceOps x = some ids)
    (hnd : (t.operations.map Prod.fst).Nodup)
    (hidx : ∀ p ∈ t.operations, p.1 ∈ (mfind t.instanceOps p.2.instanceId).getD [])
    (hsound : ∀ q ∈ t.instanceOps, ∀ opId ∈ q.2,
      ∃ p ∈ t.operations, p.1 = opId ∧ p.2.instanceId = q.1) :
    (anyInProgressIn t.operations ids = true ↔
      ∃ opId op, mfind t.operations opId = some op ∧ op.instanceId = x ∧
        op.state = OpState.inProgress) := by
  unfold anyInProgressIn
  rw [List.any_eq_true]
  constructor
  · rintro ⟨opId, hin, hP⟩
    rcases hfo : mfind t.operations opId with _ | o
    · rw [hfo] at hP
      simp at hP
    · rw [hfo] at hP
      have hiid : o.instanceId = x := by
        rcases hsound (x, ids) (mem_of_mfind hids) opId hin with ⟨p, hp, hp1, hp2⟩
        have hpf : mfind t.operations p.1 = some p.2 := mfind_eq_of_mem_nodup hnd hp
        rw [hp1, hfo] at hpf
        have hpo : o = p.2 := by simpa using hpf
        rw [hpo]
        exact hp2
      exact ⟨opId, o, hfo, hiid, by simpa [inProgressB] using hP⟩
  · rintro ⟨opId, op, hop, hiid, hst⟩
    have hin : opId ∈ ids := by
      have := hidx (opId, op) (mem_of_mfind hop)
      rw [hiid, hids] at this
      simpa using this
    refine ⟨opId, hin, ?_⟩
    rw [hop]
    simp [inProgressB, hst]

theorem setOperation_wf (s : Store) (iid opId : String) (d : OperationData)
    (now : String) (hwf : StoreWF s) (hfresh : mfind s.operations opId = none) :
    StoreWF (setOperation s iid opId d now) := by
  obtain ⟨hndB, hndO, hndI, hidx, hsound, hpend1, hpend2⟩ := hwf
  have hnotmem : ∀ v : Operation, (opId, v) ∉ s.operations :=
    fun v => not_mem_key_of_mfind_none hfresh
  have hsurvive : ∀ p ∈ s.operations,
      p ∈ mset s.operations opId
        ({ instanceId := iid, type := d.type, state := d.state,
           description := d.description, createdAt := now, updatedAt := now } : Operation) := by
    intro p hp
    apply mem_mset.mpr
    refine Or.inr ⟨hp, ?_⟩
    intro he
    exact hnotmem p.2 (by rw [← he]; exact hp)
  unfold setOperation StoreWF
  dsimp only
  refine ⟨hndB, nodup_keys_mset _ _ _ hndO, nodup_keys_mset _ _ _ hndI, ?_, ?_, ?_, ?_⟩
  · intro p hp
    rcases mem_mset.mp hp with he | ⟨hpm, hpne⟩
    · rw [he]
      dsimp only
      rw [mfind_mset_self]
      exact mem_setAdd.mpr (Or.inr rfl)
    · by_cases hi : p.2.instanceId = iid
      · rw [hi, mfind_mset_self]
        have := hidx p hpm
        rw [hi] at this
        exact mem_setAdd.mpr (Or.inl (by simpa using this))
      · rw [mfind_mset_ne _ _ _ _ (fun he => hi he.symm)]
        exact hidx p hpm
  · intro q hq opId' hin
    rcases mem_mset.mp hq with he | ⟨hqm, hqne⟩
    · rw [he] at hin ⊢
      dsimp only at hin ⊢
      rcases mem_setAdd.mp hin with hin' | hin'
      · rcases hf : mfind s.instanceOps iid with _ | ids0
        · rw [hf] at hin'
          simp at hin'
        · rw [hf] at hin'
          rcases hsound (iid, ids0) (mem_of_mfind hf) opId' (by simpa using hin') with
            ⟨p, hp, h1, h2⟩
          exact ⟨p, hsurvive p hp, h1, h2⟩
      · subst hin'
        exact ⟨(opId', _), mem_mset.mpr (Or.inl rfl), rfl, rfl⟩
    · rcases hsound q hqm opId' hin with ⟨p, hp, h1, h2⟩
      exact ⟨p, hsurvive p hp, h1, h2⟩
  · by_cases hst : d.state = OpState.inProgress
    · rw [if_pos hst]
      intro x hx
      rcases mem_setAdd.mp hx with hx' | hx'
      · rcases hpend1 x hx' with ⟨p, hp, h1, h2⟩
        exact ⟨p, hsurvive p hp, h1, h2⟩
      · subst hx'
        exact ⟨(opId, _), mem_mset.mpr (Or.inl rfl), rfl, hst⟩
    · rw [if_neg hst]
      intro x hx
      rcases hpend1 x hx with ⟨p, hp, h1, h2⟩
      exact ⟨p, hsurvive p hp, h1, h2⟩
  · intro p hp hip
    rcases mem_mset.mp hp with he | ⟨hpm, hpne⟩
    · have hst : d.state = OpState.inProgress := by
        rw [he] at hip
        exact hip
      rw [if_pos hst]
      rw [he]
      exact mem_setAdd.mpr (Or.inr rfl)
    · have := hpend2 p hpm hip
      by_cases hst : d.state = OpState.inProgress
      · rw [if_pos hst]
        exact mem_setAdd.mpr (Or.inl this)
      · rw [if_neg hst]
        exact this

theorem updateOperationD_wf (s : Store) (opId : String) (st : OpState)
    (desc : Option String) (now : String) (hwf : StoreWF s)
    (hterm : st.isTerminal = true) :
    StoreWF (updateOperationD s opId st desc now) := by
  obtain ⟨hndB, hndO, hndI, hidx, hsound, hpend1, hpend2⟩ := hwf
  rcases hfound : mfind s.operations opId with _ | op
  · rw [updateOperationD_notFound s opId st desc now hfound]
    exact ⟨hndB, hndO, hndI, hidx, hsound, hpend1, hpend2⟩
  · have hmemOp : (opId, op) ∈ s.operations := mem_of_mfind hfound
    have hval : ∀ v, (opId, v) ∈ s.operations → v = op :=
      fun v hv => value_unique_of_nodup hndO hv hmemOp
    have hinstEq : (updatedOp op st desc now).instanceId = op.instanceId := rfl
    have hstEq : (updatedOp op st desc now).state = st := rfl
    have hstNotIP : st ≠ OpState.inProgress := by
      intro he
      rw [he] at hterm
      simp [OpState.isTerminal] at hterm
    have hsurv : ∀ p ∈ s.operations, p.1 ≠ opId →
        p ∈ mset s.operations opId (updatedOp op st desc now) :=
      fun p hp hne => mem_mset.mpr (Or.inr ⟨hp, hne⟩)
    have hidx' : ∀ p ∈ mset s.operations opId (updatedOp op st desc now),
        p.1 ∈ (mfind s.instanceOps p.2.instanceId).getD [] := by
      intro p hp
      rcases mem_mset.mp hp with he | ⟨hpm, hpne⟩
      · rw [he]
        dsimp only
        rw [hinstEq]
        exact hidx (opId, op) hmemOp
      · exact hidx p hpm
    have hsound' : ∀ q ∈ s.instanceOps, ∀ opId' ∈ q.2,
        ∃ p ∈ mset s.operations opId (updatedOp op st desc now),
          p.1 = opId' ∧ p.2.instanceId = q.1 := by
      intro q hq opId' hin
      rcases hsound q hq opId' hin with ⟨p, hp, h1, h2⟩
      by_cases hpe : p.1 = opId
      · have hp2 : p.2 = op := by
          apply hval
          rw [← hpe]
          exact hp
        refine ⟨(opId, updatedOp op st desc now), mem_mset.mpr (Or.inl rfl), ?_, ?_⟩
        · rw [← hpe]
          exact h1
        · dsimp only
          rw [hinstEq, ← hp2]
          exact h2
      · exact ⟨p, hsurv p hp hpe, h1, h2⟩
    have hnd' : ((mset s.operations opId (updatedOp op st desc now)).map Prod.fst).Nodup :=
      nodup_keys_mset _ _ _ hndO
    have hor : st = OpState.succeeded ∨ st = OpState.failed := by
      cases st
      · simp [OpState.isTerminal] at hterm
      · exact Or.inl rfl
      · exact Or.inr rfl
    unfold updateOperationD updateOperation
    rw [hfound]
    dsimp only
    rw [if_pos hor]
    rcases hids : mfind s.instanceOps op.instanceId with _ | ids
    · dsimp only
      refine ⟨hndB, hnd', hndI, hidx', hsound', ?_, ?_⟩
      · intro x hx
        rcases mem_setDel.mp hx with ⟨hxp, hxne⟩
        rcases hpend1 x hxp with ⟨p, hp, h1, h2⟩
        by_cases hpe : p.1 = opId
        · exfalso
          have hp2 : p.2 = op := by
            apply hval
            rw [← hpe]
            exact hp
          apply hxne
          rw [← h1, hp2]
        · exact ⟨p, hsurv p hp hpe, h1, h2⟩
      · intro p hp hip
        rcases mem_mset.mp hp with he | ⟨hpm, hpne⟩
        · exfalso
          rw [he] at hip
          exact hstNotIP hip
        · have hxp := hpend2 p hpm hip
          apply mem_setDel.mpr
          refine ⟨hxp, ?_⟩
          intro he
          have := hidx p hpm
          rw [he, hids] at this
          simp at this
    · dsimp only
      by_cases hip : anyInProgressIn (mset s.operations opId (updatedOp op st desc now)) ids = true
      · rw [if_pos hip]
        refine ⟨hndB, hnd', hndI, hidx', hsound', ?_, ?_⟩
        · intro x hx
          rcases hpend1 x hx with ⟨p, hp, h1, h2⟩
          by_cases hpe : p.1 = opId
          · have hp2 : p.2 = op := by
              apply hval
              rw [← hpe]
              exact hp
            have hxinst : op.instanceId = x := by rw [← hp2, h1]
            unfold anyInProgressIn at hip
            rcases List.any_eq_true.mp hip with ⟨id, hidIn, hPred⟩
            rcases hfo : mfind (mset s.operations opId (updatedOp op st desc now)) id
              with _ | o
            · rw [hfo] at hPred
              simp at hPred
            · rw [hfo] at hPred
              have hidne : id ≠ opId := by
                intro he
                rw [he, mfind_mset_self] at hfo
                have ho : o = updatedOp op st desc now := by simpa using hfo.symm
                rw [ho] at hPred
                have : st = OpState.inProgress := by
                  simpa [inProgressB, updatedOp] using hPred
                exact hstNotIP this
              have hfo' : mfind s.operations id = some o := by
                rw [mfind_mset_ne _ _ _ _ (Ne.symm hidne)] at hfo
                exact hfo
              have hoInst : o.instanceId = op.instanceId := by
                rcases hsound (op.instanceId, ids) (mem_of_mfind hids) id hidIn with
                  ⟨p', hp', hp1, hp2'⟩
                have hpf : mfind s.operations p'.1 = some p'.2 :=
                  mfind_eq_of_mem_nodup hndO hp'
                rw [hp1, hfo'] at hpf
                have : o = p'.2 := by simpa using hpf
                rw [this]
                exact hp2'
              refine ⟨(id, o), mem_of_mfind hfo, ?_, ?_⟩
              · dsimp only
                rw [hoInst, hxinst]
              · unfold inProgressB at hPred
                simpa using hPred
          · exact ⟨p, hsurv p hp hpe, h1, h2⟩
        · intro p hp hprog
          rcases mem_mset.mp hp with he | ⟨hpm, hpne⟩
          · exfalso
            rw [he] at hprog
            exact hstNotIP hprog
          · exact hpend2 p hpm hprog
      · rw [if_neg hip]
        refine ⟨hndB, hnd', hndI, hidx', hsound', ?_, ?_⟩
        · intro x hx
          rcases mem_setDel.mp hx with ⟨hxp, hxne⟩
          rcases hpend1 x hxp with ⟨p, hp, h1, h2⟩
          by_cases hpe : p.1 = opId
          · exfalso
            have hp2 : p.2 = op := by
              apply hval
              rw [← hpe]
              exact hp
            apply hxne
            rw [← h1, hp2]
          · exact ⟨p, hsurv p hp hpe, h1, h2⟩
        · intro p hp hprog
          rcases mem_mset.mp hp with he | ⟨hpm, hpne⟩
          · exfalso
            rw [he] at hprog
            exact hstNotIP hprog
          · have hxp := hpend2 p hpm hprog
            apply mem_setDel.mpr
            refine ⟨hxp, ?_⟩
            intro he
            apply hip
            unfold anyInProgressIn
            apply List.any_eq_true.mpr
            have hinIds : p.1 ∈ ids := by
              have := hidx p hpm
              rw [he, hids] at this
              simpa using this
            refine ⟨p.1, hinIds, ?_⟩
            have hfp : mfind s.operations p.1 = some p.2 :=
              mfind_eq_of_mem_nodup hndO hpm
            rw [mfind_mset_ne _ _ _ _ (Ne.symm hpne), hfp]
            simpa [inProgressB] using hprog

theorem deleteOperation_wf (s : Store) (opId : String) (hwf : StoreWF s) :
    StoreWF (deleteOperation s opId).1 := by
  obtain ⟨hndB, hndO, hndI, hidx, hsound, hpend1, hpend2⟩ := hwf
  rcases hfound : mfind s.operations opId with _ | op
  · unfold deleteOperation
    rw [hfound]
    exact ⟨hndB, hndO, hndI, hidx, hsound, hpend1, hpend2⟩
  · have hmemOp : (opId, op) ∈ s.operations := mem_of_mfind hfound
    have hval : ∀ v, (opId, v) ∈ s.operations → v = op :=
      fun v hv => value_unique_of_nodup hndO hv hmemOp
    have hndO' : ((mdel s.operations opId).map Prod.fst).Nodup :=
      nodup_keys_mdel _ _ hndO
    have hfind' : ∀ p, p ∈ mdel s.operations opId →
        mfind (mdel s.operations opId) p.1 = some p.2 :=
      fun p hp => mfind_eq_of_mem_nodup hndO' hp
    unfold deleteOperation
    rw [hfound]
    dsimp only
    rcases hids : mfind s.instanceOps op.instanceId with _ | ids
    · dsimp only
      have hqneKey : ∀ q ∈ s.instanceOps, q.1 ≠ op.instanceId := by
        intro q hq he
        have : mfind s.instanceOps q.1 = some q.2 := mfind_eq_of_mem_nodup hndI hq
        rw [he, hids] at this
        simp at this
      have hidx2 : ∀ p ∈ mdel s.operations opId,
          p.1 ∈ (mfind s.instanceOps p.2.instanceId).getD [] := by
        intro p hp
        exact hidx p (mem_mdel.mp hp).1
      have hsound2 : ∀ q ∈ s.instanceOps, ∀ opId' ∈ q.2,
          ∃ p ∈ mdel s.operations opId, p.1 = opId' ∧ p.2.instanceId = q.1 := by
        intro q hq opId' hin
        rcases hsound q hq opId' hin with ⟨p, hp, h1, h2⟩
        refine ⟨p, mem_mdel.mpr ⟨hp, ?_⟩, h1, h2⟩
        intro he
        have hp2 : p.2 = op := hval p.2 (by rw [← he]; exact hp)
        exact hqneKey q hq (by rw [← h2, hp2])
      split
      next hAny =>
        refine ⟨hndB, hndO', hndI, hidx2, hsound2, ?_, ?_⟩
        · intro x hx
          rcases hpend1 x hx with ⟨p, hp, h1, h2⟩
          refine ⟨p, mem_mdel.mpr ⟨hp, ?_⟩, h1, h2⟩
          intro he
          have hp2 : p.2 = op := hval p.2 (by rw [← he]; exact hp)
          have : p.1 ∈ (mfind s.instanceOps p.2.instanceId).getD [] := hidx p hp
          rw [hp2, hids] at this
          simp at this
        · intro p hp hprog
          exact hpend2 p (mem_mdel.mp hp).1 hprog
      next hAny =>
        refine ⟨hndB, hndO', hndI, hidx2, hsound2, ?_, ?_⟩
        · intro x hx
          rcases mem_setDel.mp hx with ⟨hxp, hxne⟩
          rcases hpend1 x hxp with ⟨p, hp, h1, h2⟩
          refine ⟨p, mem_mdel.mpr ⟨hp, ?_⟩, h1, h2⟩
          intro he
          have hp2 : p.2 = op := hval p.2 (by rw [← he]; exact hp)
          exact hxne (by rw [← h1, hp2])
        · intro p hp hprog
          apply mem_setDel.mpr
          refine ⟨hpend2 p (mem_mdel.mp hp).1 hprog, ?_⟩
          intro he
          have : p.1 ∈ (mfind s.instanceOps p.2.instanceId).getD [] :=
            hidx p (mem_mdel.mp hp).1
          rw [he, hids] at this
          simp at this
    · dsimp only
      by_cases hrem : (setDel ids opId).isEmpty = true
      · rw [if_pos hrem]
        have hremNil : setDel ids opId = [] := List.isEmpty_iff.mp hrem
        have hnoOther : ∀ opId' ∈ ids, opId' = opId := by
          intro opId' hin
          by_contra hne
          have : opId' ∈ setDel ids opId := mem_setDel.mpr ⟨hin, hne⟩
          rw [hremNil] at this
          simp at this
        have hidx2 : ∀ p ∈ mdel s.operations opId,
            p.1 ∈ (mfind (mdel s.instanceOps op.instanceId) p.2.instanceId).getD [] := by
          intro p hp
          rcases mem_mdel.mp hp with ⟨hpm, hpne⟩
          by_cases hi : p.2.instanceId = op.instanceId
          · exfalso
            have := hidx p hpm
            rw [hi, hids] at this
            have := hnoOther p.1 (by simpa using this)
            exact hpne this
          · rw [mfind_mdel_ne _ _ _ (fun he => hi he.symm)]
            exact hidx p hpm
        have hsound2 : ∀ q ∈ mdel s.instanceOps op.instanceId, ∀ opId' ∈ q.2,
            ∃ p ∈ mdel s.operations opId, p.1 = opId' ∧ p.2.instanceId = q.1 := by
          intro q hq opId' hin
          rcases mem_mdel.mp hq with ⟨hqm, hqne⟩
          rcases hsound q hqm opId' hin with ⟨p, hp, h1, h2⟩
          refine ⟨p, mem_mdel.mpr ⟨hp, ?_⟩, h1, h2⟩
          intro he
          have hp2 : p.2 = op := hval p.2 (by rw [← he]; exact hp)
          exact hqne (by rw [← h2, hp2])
        split
        next hAny =>
          refine ⟨hndB, hndO', nodup_keys_mdel _ _ hndI, hidx2, hsound2, ?_, ?_⟩
          · intro x hx
            rcases hpend1 x hx with ⟨p, hp, h1, h2⟩
            by_cases hpe : p.1 = opId
            · have hp2 : p.2 = op := hval p.2 (by rw [← hpe]; exact hp)
              have hAny' := hAny
              rw [listOps_any_char_general _ op.instanceId hndO' hidx2 hsound2] at hAny'
              rcases hAny' with ⟨id, o, ho, hoInst, hoSt⟩
              exact ⟨(id, o), mem_of_mfind ho, by rw [hoInst, ← hp2, h1], hoSt⟩
            · exact ⟨p, mem_mdel.mpr ⟨hp, hpe⟩, h1, h2⟩
          · intro p hp hprog
            exact hpend2 p (mem_mdel.mp hp).1 hprog
        next hAny =>
          refine ⟨hndB, hndO', nodup_keys_mdel _ _ hndI, hidx2, hsound2, ?_, ?_⟩
          · intro x hx
            rcases mem_setDel.mp hx with ⟨hxp, hxne⟩
            rcases hpend1 x hxp with ⟨p, hp, h1, h2⟩
            by_cases hpe : p.1 = opId
            · exfalso
              have hp2 : p.2 = op := hval p.2 (by rw [← hpe]; exact hp)
              exact hxne (by rw [← h1, hp2])
            · exact ⟨p, mem_mdel.mpr ⟨hp, hpe⟩, h1, h2⟩
          · intro p hp hprog
            apply mem_setDel.mpr
            refine ⟨hpend2 p (mem_mdel.mp hp).1 hprog, ?_⟩
            intro he
            apply hAny
            rw [listOps_any_char_general _ op.instanceId hndO' hidx2 hsound2]
            refine ⟨p.1, p.2, hfind' p hp, by rw [he], hprog⟩
      · rw [if_neg hrem]
        have hidx2 : ∀ p ∈ mdel s.operations opId,
            p.1 ∈ (mfind (mset s.instanceOps op.instanceId (setDel ids opId))
              p.2.instanceId).getD [] := by
          intro p hp
          rcases mem_mdel.mp hp with ⟨hpm, hpne⟩
          by_cases hi : p.2.instanceId = op.instanceId
          · rw [hi, mfind_mset_self]
            have := hidx p hpm
            rw [hi, hids] at this
            exact mem_setDel.mpr ⟨by simpa using this, hpne⟩
          · rw [mfind_mset_ne _ _ _ _ (fun he => hi he.symm)]
            exact hidx p hpm
        have hsound2 : ∀ q ∈ mset s.instanceOps op.instanceId (setDel ids opId),
            ∀ opId' ∈ q.2, ∃ p ∈ mdel s.operations opId,
              p.1 = opId' ∧ p.2.instanceId = q.1 := by
          intro q hq opId' hin
          rcases mem_mset.mp hq with he | ⟨hqm, hqne⟩
          · rw [he] at hin ⊢
            dsimp only at hin ⊢
            rcases mem_setDel.mp hin with ⟨hinIds, hinNe⟩
            rcases hsound (op.instanceId, ids) (mem_of_mfind hids) opId' (by simpa using hinIds)
              with ⟨p, hp, h1, h2⟩
            refine ⟨p, mem_mdel.mpr ⟨hp, ?_⟩, h1, h2⟩
            intro hpe
            exact hinNe (by rw [← h1, hpe])
          · rcases hsound q hqm opId' hin with ⟨p, hp, h1, h2⟩
            refine ⟨p, mem_mdel.mpr ⟨hp, ?_⟩, h1, h2⟩
            intro hpe
            have hp2 : p.2 = op := hval p.2 (by rw [← hpe]; exact hp)
            exact hqne (by rw [← h2, hp2])
        split
        next hAny =>
          refine ⟨hndB, hndO', nodup_keys_mset _ _ _ hndI, hidx2, hsound2, ?_, ?_⟩
          · intro x hx
            rcases hpend1 x hx with ⟨p, hp, h1, h2⟩
            by_cases hpe : p.1 = opId
            · have hp2 : p.2 = op := hval p.2 (by rw [← hpe]; exact hp)
              have hAny' := hAny
              rw [listOps_any_char_general _ op.instanceId hndO' hidx2 hsound2] at hAny'
              rcases hAny' with ⟨id, o, ho, hoInst, hoSt⟩
              exact ⟨(id, o), mem_of_mfind ho, by rw [hoInst, ← hp2, h1], hoSt⟩
            · exact ⟨p, mem_mdel.mpr ⟨hp, hpe⟩, h1, h2⟩
          · intro p hp hprog
            exact hpend2 p (mem_mdel.mp hp).1 hprog
        next hAny =>
          refine ⟨hndB, hndO', nodup_keys_mset _ _ _ hndI, hidx2, hsound2, ?_, ?_⟩
          · intro x hx
            rcases mem_setDel.mp hx with ⟨hxp, hxne⟩
            rcases hpend1 x hxp with ⟨p, hp, h1, h2⟩
            by_cases hpe : p.1 = opId
            · exfalso
              have hp2 : p.2 = op := hval p.2 (by rw [← hpe]; exact hp)
              exact hxne (by rw [← h1, hp2])
            · exact ⟨p, mem_mdel.mpr ⟨hp, hpe⟩, h1, h2⟩
          · intro p hp hprog
            apply mem_setDel.mpr
            refine ⟨hpend2 p (mem_mdel.mp hp).1 hprog, ?_⟩
            intro he
            apply hAny
            rw [listOps_any_char_general _ op.instanceId hndO' hidx2 hsound2]
            refine ⟨p.1, p.2, hfind' p hp, by rw [he], hprog⟩

theorem deleteInstance_wf (s : Store) (iid : String) (hwf : StoreWF s) :
    StoreWF (deleteInstance s iid).1 := by
  obtain ⟨hndB, hndO, hndI, hidx, hsound, hpend1, hpend2⟩ := hwf
  rcases hex : mfind s.instances iid with _ | inst
  · unfold deleteInstance
    rw [hex]
    exact ⟨hndB, hndO, hndI, hidx, hsound, hpend1, hpend2⟩
  · have hndB' : ((s.bindings.filter (fun p => decide (p.2.instanceId ≠ iid))).map
        Prod.fst).Nodup := nodup_keys_filter _ _ hndB
    have hIPnotDel : ∀ (l : List String), ∀ p ∈ s.operations,
        p.2.state = OpState.inProgress → p.1 ∉ terminalOpIds s.operations l := by
      intro l p hp hprog hmem
      rcases List.mem_filter.mp hmem with ⟨_, hpred⟩
      rw [mfind_eq_of_mem_nodup hndO hp] at hpred
      dsimp only at hpred
      rw [hprog] at hpred
      simp [OpState.isTerminal] at hpred
    unfold deleteInstance deleteInstanceFound cascadeOps
    rw [hex]
    dsimp only
    rcases hids : mfind s.instanceOps iid with _ | ids
    · dsimp only
      have hlist : ∀ pend' : List String,
          listOperationsByInstance
            { instances := mdel s.instances iid,
              bindings := s.bindings.filter (fun p => decide (p.2.instanceId ≠ iid)),
              operations := s.operations, instanceOps := s.instanceOps,
              pendingOperations := pend' } iid = [] := by
        intro pend'
        unfold listOperationsByInstance
        rw [show mfind s.instanceOps iid = none from hids]
      split
      next hAny =>
        exfalso
        rw [hlist] at hAny
        simp at hAny
      next hAny =>
        refine ⟨hndB', hndO, hndI, hidx, hsound, ?_, ?_⟩
        · intro x hx
          rcases mem_setDel.mp hx with ⟨hxp, _⟩
          exact hpend1 x hxp
        · intro p hp hprog
          apply mem_setDel.mpr
          refine ⟨hpend2 p hp hprog, ?_⟩
          intro he
          have := hidx p hp
          rw [he, hids] at this
          simp at this
    · dsimp only
      by_cases hrem : (ids.filter (fun opId =>
          decide (opId ∉ terminalOpIds s.operations ids))).isEmpty = true
      · rw [if_pos hrem]
        have hremNil : ids.filter (fun opId =>
            decide (opId ∉ terminalOpIds s.operations ids)) = [] :=
          List.isEmpty_iff.mp hrem
        have hallDel : ∀ id ∈ ids, id ∈ terminalOpIds s.operations ids := by
          intro id hin
          by_contra hne
          have : id ∈ ids.filter (fun opId =>
              decide (opId ∉ terminalOpIds s.operations ids)) :=
            List.mem_filter.mpr ⟨hin, by simpa using hne⟩
          rw [hremNil] at this
          simp at this
        have hmemOps' : ∀ p, p ∈ (terminalOpIds s.operations ids).foldl
            (fun ops opId => mdel ops opId) s.operations ↔
            p ∈ s.operations ∧ p.1 ∉ terminalOpIds s.operations ids :=
          fun p => mem_foldl_mdel _ _ p
        have hndO' : (((terminalOpIds s.operations ids).foldl
            (fun ops opId => mdel ops opId) s.operations).map Prod.fst).Nodup :=
          nodup_keys_foldl_mdel _ _ hndO
        have hidx2 : ∀ p ∈ (terminalOpIds s.operations ids).foldl
            (fun ops opId => mdel ops opId) s.operations,
            p.1 ∈ (mfind (mdel s.instanceOps iid) p.2.instanceId).getD [] := by
          intro p hp
          rcases (hmemOps' p).mp hp with ⟨hpm, hpnd⟩
          by_cases hi : p.2.instanceId = iid
          · exfalso
            have := hidx p hpm
            rw [hi, hids] at this
            exact hpnd (hallDel p.1 (by simpa using this))
          · rw [mfind_mdel_ne _ _ _ (fun he => hi he.symm)]
            exact hidx p hpm
        have hsound2 : ∀ q ∈ mdel s.instanceOps iid, ∀ opId' ∈ q.2,
            ∃ p ∈ (terminalOpIds s.operations ids).foldl
              (fun ops opId => mdel ops opId) s.operations,
              p.1 = opId' ∧ p.2.instanceId = q.1 := by
          intro q hq opId' hin
          rcases mem_mdel.mp hq with ⟨hqm, hqne⟩
          rcases hsound q hqm opId' hin with ⟨p, hp, h1, h2⟩
          refine ⟨p, (hmemOps' p).mpr ⟨hp, ?_⟩, h1, h2⟩
          intro hdel
          rcases List.mem_filter.mp hdel with ⟨hinIds, _⟩
          rcases hsound (iid, ids) (mem_of_mfind hids) p.1 hinIds with ⟨p', hp', h1', h2'⟩
          have hpp : p'.2 = p.2 := by
            have hf1 : mfind s.operations p'.1 = some p'.2 :=
              mfind_eq_of_mem_nodup hndO hp'
            have hf2 : mfind s.operations p.1 = some p.2 :=
              mfind_eq_of_mem_nodup hndO hp
            rw [h1'] at hf1
            rw [hf2] at hf1
            simpa using hf1.symm
          apply hqne
          rw [← h2, ← hpp, h2']
        split
        next hAny =>
          refine ⟨hndB', hndO', nodup_keys_mdel _ _ hndI, hidx2, hsound2, ?_, ?_⟩
          · intro x hx
            rcases hpend1 x hx with ⟨p, hp, h1, h2⟩
            exact ⟨p, (hmemOps' p).mpr ⟨hp, hIPnotDel ids p hp h2⟩, h1, h2⟩
          · intro p hp hprog
            exact hpend2 p ((hmemOps' p).mp hp).1 hprog
        next hAny =>
          refine ⟨hndB', hndO', nodup_keys_mdel _ _ hndI, hidx2, hsound2, ?_, ?_⟩
          · intro x hx
            rcases mem_setDel.mp hx with ⟨hxp, _⟩
            rcases hpend1 x hxp with ⟨p, hp, h1, h2⟩
            exact ⟨p, (hmemOps' p).mpr ⟨hp, hIPnotDel ids p hp h2⟩, h1, h2⟩
          · intro p hp hprog
            apply mem_setDel.mpr
            refine ⟨hpend2 p ((hmemOps' p).mp hp).1 hprog, ?_⟩
            intro he
            apply hAny
            rw [listOps_any_char_general _ iid hndO' hidx2 hsound2]
            refine ⟨p.1, p.2, mfind_eq_of_mem_nodup hndO' hp, by rw [he], hprog⟩
      · rw [if_neg hrem]
        have hmemOps' : ∀ p, p ∈ (terminalOpIds s.operations ids).foldl
            (fun ops opId => mdel ops opId) s.operations ↔
            p ∈ s.operations ∧ p.1 ∉ terminalOpIds s.operations ids :=
          fun p => mem_foldl_mdel _ _ p
        have hndO' : (((terminalOpIds s.operations ids).foldl
            (fun ops opId => mdel ops opId) s.operations).map Prod.fst).Nodup :=
          nodup_keys_foldl_mdel _ _ hndO
        have hidx2 : ∀ p ∈ (terminalOpIds s.operations ids).foldl
            (fun ops opId => mdel ops opId) s.operations,
            p.1 ∈ (mfind (mset s.instanceOps iid (ids.filter (fun opId =>
              decide (opId ∉ terminalOpIds s.operations ids)))) p.2.instanceId).getD [] := by
          intro p hp
          rcases (hmemOps' p).mp hp with ⟨hpm, hpnd⟩
          by_cases hi : p.2.instanceId = iid
          · rw [hi, mfind_mset_self]
            have := hidx p hpm
            rw [hi, hids] at this
            exact List.mem_filter.mpr ⟨by simpa using this, by simpa using hpnd⟩
          · rw [mfind_mset_ne _ _ _ _ (fun he => hi he.symm)]
            exact hidx p hpm
        have hsound2 : ∀ q ∈ mset s.instanceOps iid (ids.filter (fun opId =>
            decide (opId ∉ terminalOpIds s.operations ids))), ∀ opId' ∈ q.2,
            ∃ p ∈ (terminalOpIds s.operations ids).foldl
              (fun ops opId => mdel ops opId) s.operations,
              p.1 = opId' ∧ p.2.instanceId = q.1 := by
          intro q hq opId' hin
          rcases mem_mset.mp hq with he | ⟨hqm, hqne⟩
          · rw [he] at hin ⊢
            dsimp only at hin ⊢
            rcases List.mem_filter.mp hin with ⟨hinIds, hinNd⟩
            rcases hsound (iid, ids) (mem_of_mfind hids) opId' (by simpa using hinIds)
              with ⟨p, hp, h1, h2⟩
            refine ⟨p, (hmemOps' p).mpr ⟨hp, by rw [h1]; simpa using hinNd⟩, h1, h2⟩
          · rcases hsound q hqm opId' hin with ⟨p, hp, h1, h2⟩
            refine ⟨p, (hmemOps' p).mpr ⟨hp, ?_⟩, h1, h2⟩
            intro hdel
            rcases List.mem_filter.mp hdel with ⟨hinIds, _⟩
            rcases hsound (iid, ids) (mem_of_mfind hids) p.1 hinIds with ⟨p', hp', h1', h2'⟩
            have hpp : p'.2 = p.2 := by
              have hf1 : mfind s.operations p'.1 = some p'.2 :=
                mfind_eq_of_mem_nodup hndO hp'
              have hf2 : mfind s.operations p.1 = some p.2 :=
                mfind_eq_of_mem_nodup hndO hp
              rw [h1'] at hf1
              rw [hf2] at hf1
              simpa using hf1.symm
            apply hqne
            rw [← h2, ← hpp, h2']
        split
        next hAny =>
          refine ⟨hndB', hndO', nodup_keys_mset _ _ _ hndI, hidx2, hsound2, ?_, ?_⟩
          · intro x hx
            rcases hpend1 x hx with ⟨p, hp, h1, h2⟩
            exact ⟨p, (hmemOps' p).mpr ⟨hp, hIPnotDel ids p hp h2⟩, h1, h2⟩
          · intro p hp hprog
            exact hpend2 p ((hmemOps' p).mp hp).1 hprog
        next hAny =>
          refine ⟨hndB', hndO', nodup_keys_mset _ _ _ hndI, hidx2, hsound2, ?_, ?_⟩
          · intro x hx
            rcases mem_setDel.mp hx with ⟨hxp, _⟩
            rcases hpend1 x hxp with ⟨p, hp, h1, h2⟩
            exact ⟨p, (hmemOps' p).mpr ⟨hp, hIPnotDel ids p hp h2⟩, h1, h2⟩
          · intro p hp hprog
            apply mem_setDel.mpr
            refine ⟨hpend2 p ((hmemOps' p).mp hp).1 hprog, ?_⟩
            intro he
            apply hAny
            rw [listOps_any_char_general _ iid hndO' hidx2 hsound2]
            refine ⟨p.1, p.2, mfind_eq_of_mem_nodup hndO' hp, by rw [he], hprog⟩

theorem clearOperationsForInstance_wf (s : Store) (iid : String)
    (hwf : StoreWF s) : StoreWF (clearOperationsForInstance s iid) := by
  obtain ⟨hndB, hndO, hndI, hidx, hsound, hpend1, hpend2⟩ := hwf
  unfold clearOperationsForInstance
  rcases hids : mfind s.instanceOps iid with _ | ids
  · dsimp only
    refine ⟨hndB, hndO, hndI, hidx, hsound, ?_, ?_⟩
    · intro x hx
      exact hpend1 x (mem_setDel.mp hx).1
    · intro p hp hprog
      apply mem_setDel.mpr
      refine ⟨hpend2 p hp hprog, ?_⟩
      intro he
      have := hidx p hp
      rw [he, hids] at this
      simp at this
  · dsimp only
    have hvalEq : ∀ p p', p ∈ s.operations → p' ∈ s.operations → p'.1 = p.1 →
        p'.2 = p.2 := by
      intro p p' hp hp' he
      have hf1 : mfind s.operations p'.1 = some p'.2 := mfind_eq_of_mem_nodup hndO hp'
      have hf2 : mfind s.operations p.1 = some p.2 := mfind_eq_of_mem_nodup hndO hp
      rw [he, hf2] at hf1
      simpa using hf1.symm
    have hnotids : ∀ p ∈ s.operations, p.2.instanceId ≠ iid → p.1 ∉ ids := by
      intro p hp hne hin
      rcases hsound (iid, ids) (mem_of_mfind hids) p.1 hin with ⟨p', hp', h1', h2'⟩
      exact hne (by rw [← hvalEq p p' hp hp' h1', h2'])
    refine ⟨hndB, nodup_keys_foldl_mdel _ _ hndO, nodup_keys_mdel _ _ hndI, ?_, ?_, ?_, ?_⟩
    · intro p hp
      rcases (mem_foldl_mdel ids s.operations p).mp hp with ⟨hpm, hpn⟩
      by_cases hi : p.2.instanceId = iid
      · exfalso
        have := hidx p hpm
        rw [hi, hids] at this
        exact hpn (by simpa using this)
      · rw [mfind_mdel_ne _ _ _ (fun he => hi he.symm)]
        exact hidx p hpm
    · intro q hq opId' hin
      rcases mem_mdel.mp hq with ⟨hqm, hqne⟩
      rcases hsound q hqm opId' hin with ⟨p, hp, h1, h2⟩
      refine ⟨p, (mem_foldl_mdel ids s.operations p).mpr ⟨hp, ?_⟩, h1, h2⟩
      apply hnotids p hp
      rw [h2]
      exact hqne
    · intro x hx
      rcases mem_setDel.mp hx with ⟨hxp, hxne⟩
      rcases hpend1 x hxp with ⟨p, hp, h1, h2⟩
      refine ⟨p, (mem_foldl_mdel ids s.operations p).mpr ⟨hp, ?_⟩, h1, h2⟩
      apply hnotids p hp
      rw [h1]
      exact hxne
    · intro p hp hprog
      rcases (mem_foldl_mdel ids s.operations p).mp hp with ⟨hpm, hpn⟩
      apply mem_setDel.mpr
      refine ⟨hpend2 p hpm hprog, ?_⟩
      intro he
      have := hidx p hpm
      rw [he, hids] at this
      exact hpn (by simpa using this)

theorem emptyStore_wf : StoreWF emptyStore := by
  unfold StoreWF emptyStore
  refine ⟨by simp, by simp, by simp, ?_, ?_, ?_, ?_⟩ <;> intro p hp <;> simp at hp

theorem applyMut_wf (s : Store) (m : Mut) (hwf : StoreWF s) (hok : mutOk s m) :
    StoreWF (applyMut s m) := by
  cases m with
  | set iid opId d now => exact setOperation_wf s iid opId d now hwf hok
  | upd opId st desc now => exact updateOperationD_wf s opId st desc now hwf hok
  | delOp opId => exact deleteOperation_wf s opId hwf
  | delInst iid => exact deleteInstance_wf s iid hwf
  | clearOps iid => exact clearOperationsForInstance_wf s iid hwf

theorem applyMuts_wf (muts : List Mut) (s : Store) (hwf : StoreWF s)
    (hseq : OkSeq s muts) : StoreWF (applyMuts s muts) := by
  induction muts generalizing s with
  | nil => exact hwf
  | cons m rest ih =>
    exact ih (applyMut s m) (applyMut_wf s m hwf hseq.1) hseq.2

theorem hasPending_seq_counterexample :
    hasPendingOperation (applyMuts emptyStore mutsCE) "i" = true ∧
    (applyMuts emptyStore mutsCE).operations.all
      (fun p => decide (p.2.state ≠ OpState.inProgress)) = true ∧
    ¬∃ opId op, getOperation (applyMuts emptyStore mutsCE) opId = some op ∧
      op.instanceId = "i" ∧ op.state = OpState.inProgress := by
  refine ⟨by decide, by decide, ?_⟩
  rintro ⟨opId, op, hop, hiid, hst⟩
  have hall : (applyMuts emptyStore mutsCE).operations.all
      (fun p => decide (p.2.state ≠ OpState.inProgress)) = true := by decide
  have hne := List.all_eq_true.mp hall (opId, op) (mem_of_mfind hop)
  simp only [decide_eq_true_eq] at hne
  exact hne hst

/-- C7 (corrected): hasPendingOperation is accurate — true iff some
operation recorded for the instance is in progress — for every mutation
sequence in which setOperation is only used with operation ids not
already present and updateOperation only sets terminal states, starting
from the empty store; the unrestricted claim fails (see the
counterexample: setOperation overwriting an in-progress operation with a
terminal one leaves a stale pending flag). -/
theorem hasPendingOperation_accurate (muts : List Mut)
    (hseq : OkSeq emptyStore muts) :
    ∀ iid, hasPendingOperation (applyMuts emptyStore muts) iid = true ↔
      ∃ opId op, getOperation (applyMuts emptyStore muts) opId = some op ∧
        op.instanceId = iid ∧ op.state = OpState.inProgress := by
  obtain ⟨_, hndO, _, _, _, hpend1, hpend2⟩ :=
    applyMuts_wf muts emptyStore emptyStore_wf hseq
  intro iid
  unfold hasPendingOperation
  constructor
  · intro h
    have hx : iid ∈ (applyMuts emptyStore muts).pendingOperations := by simpa using h
    rcases hpend1 iid hx with ⟨p, hp, h1, h2⟩
    exact ⟨p.1, p.2, mfind_eq_of_mem_nodup hndO hp, h1, h2⟩
  · rintro ⟨opId, op, hop, h1, h2⟩
    have := hpend2 (opId, op) (mem_of_mfind hop) h2
    rw [show ((opId, op) : String × Operation).2.instanceId = iid from h1] at this
    simpa using this

theorem hasPendingOperation_accurate_witness :
    (hasPendingOperation (applyMuts emptyStore mutsW) "i1" = true ↔
      ∃ opId op, getOperation (applyMuts emptyStore mutsW) opId = some op ∧
        op.instanceId = "i1" ∧ op.state = OpState.inProgress) :=
  hasPendingOperation_accurate mutsW (by decide) "i1"

theorem pending_gate_counterexample :
    getOperation c1Store "opC" = some opCRec ∧
    opCRec.state = OpState.inProgress ∧
    opCRec.instanceId = "i1" ∧
    hasPendingOperation c1Store "i1" = true ∧
    (provisionPut cfgSyncW c1Store reqMatchW (.ok { accountId := "a", serviceId := "r" })
      "t2" "op2").resp.status = 200 ∧
    (200 : Nat) ≠ 422 := by
  refine ⟨by decide, by decide, by decide, by decide, by decide, by decide⟩

/-- C1 (corrected): while an operation for instance X is in progress,
a PATCH on an existing instance, a DELETE whose service and plan match,
and a PUT for an X with no stored instance record all return 422 with the
concurrency description; however a PUT whose instance record already
exists answers 200/409 from the idempotency check even while the
operation is pending, contrary to the claim. Once the operation is
updated to a terminal state the pending flag is cleared and the same
requests are no longer rejected with 422. -/
theorem pending_gate (cfg : Config) (s : Store) (X : String) (now opId2 : String) :
    (hasPendingOperation s X = true →
      (∀ (req : ProvisionReq) (up : Except JsError RadwareProvisionResult),
        req.instanceId = X → jsTruthy req.serviceId = true → jsTruthy req.planId = true →
        getInstance s X = none →
        (provisionPut cfg s req up now opId2).resp = respD 422 concurrencyMsg) ∧
      (∀ (req : UpdateReq) (pu : Except JsError Unit),
        req.instanceId = X → (getInstance s X).isSome = true →
        (patchUpdate s req pu now).resp = respD 422 concurrencyMsg) ∧
      (∀ (req : DeprovisionReq) (up : Except JsError Unit) (inst : ServiceInstance),
        req.instanceId = X → getInstance s X = some inst →
        req.serviceId = some inst.serviceId → req.planId = some inst.planId →
        inst.serviceId ≠ "" → inst.planId ≠ "" →
        (deprovisionDelete cfg s req up now opId2).resp = respD 422 concurrencyMsg) ∧
      (∀ (req : ProvisionReq) (up : Except JsError RadwareProvisionResult)
          (inst : ServiceInstance),
        req.instanceId = X → getInstance s X = some inst →
        jsTruthy req.serviceId = true → jsTruthy req.planId = true →
        inst.serviceId = req.serviceId.getD "" → inst.planId = req.planId.getD "" →
        (provisionPut cfg s req up now opId2).resp.status = 200)) ∧
    (hasPendingOperation s X = false →
      (∀ (req : ProvisionReq) (r : RadwareProvisionResult),
        req.instanceId = X → jsTruthy req.serviceId = true → jsTruthy req.planId = true →
        getInstance s X = none → cfg.enableAsync = false →
        (provisionPut cfg s req (.ok r) now opId2).resp.status = 201) ∧
      (∀ (req : UpdateReq) (inst : ServiceInstance),
        req.instanceId = X → getInstance s X = some inst → jsTruthy req.planId = false →
        (patchUpdate s req (.ok ()) now).resp.status = 200) ∧
      (∀ (req : DeprovisionReq) (inst : ServiceInstance),
        req.instanceId = X → getInstance s X = some inst →
        req.serviceId = some inst.serviceId → req.planId = some inst.planId →
        inst.serviceId ≠ "" → inst.planId ≠ "" → cfg.enableAsync = false →
        (deprovisionDelete cfg s req (.ok ()) now opId2).resp.status = 200)) ∧
    (∀ (opId : String) (op : Operation) (st : OpState) (desc : Option String),
      mfind s.operations opId = some op → op.instanceId = X → st.isTerminal = true →
      (s.operations.map Prod.fst).Nodup →
      (∀ q ∈ s.instanceOps, ∀ opId' ∈ q.2,
        ∃ p ∈ s.operations, p.1 = opId' ∧ p.2.instanceId = q.1) →
      (∀ q ∈ s.operations, q.2.instanceId = X → q.2.state = OpState.inProgress →
        q.1 = opId) →
      hasPendingOperation (updateOperationD s opId st desc now) X = false) := by
  refine ⟨?_, ?_, ?_⟩
  · intro hpend
    refine ⟨?_, ?_, ?_, ?_⟩
    · intro req up hreq hsid hpid hnone
      subst hreq
      unfold provisionPut
      rw [if_neg (by simp [hsid, hpid]), hnone]
      dsimp only
      rw [if_pos hpend]
    · intro req pu hreq hsome
      subst hreq
      rcases hinst : getInstance s req.instanceId with _ | inst
      · rw [hinst] at hsome
        simp at hsome
      · unfold patchUpdate
        rw [hinst]
        dsimp only
        rw [if_pos hpend]
    · intro req up inst hreq hinst hqs hqp hne1 hne2
      subst hreq
      unfold deprovisionDelete
      rw [if_neg (by simp [jsTruthy, hqs, hqp, hne1, hne2])]
      rw [hinst]
      dsimp only
      rw [if_neg (by rw [hqs, hqp]; simp)]
      rw [if_pos hpend]
    · intro req up inst hreq hinst hsid hpid hm1 hm2
      subst hreq
      unfold provisionPut
      rw [if_neg (by simp [hsid, hpid]), hinst]
      dsimp only
      rw [if_pos ⟨hm1, hm2⟩]
      rfl
  · intro hpend
    refine ⟨?_, ?_, ?_⟩
    · intro req r hreq hsid hpid hnone hsync
      subst hreq
      unfold provisionPut
      rw [if_neg (by simp [hsid, hpid]), hnone]
      dsimp only
      rw [if_neg (by simp [hpend])]
      rw [if_neg (by simp [hsync])]
      rw [if_neg (by simp [hsync])]
      unfold createInstance
      rw [if_neg (by rw [show mfind s.instances req.instanceId = none from hnone]; simp)]
      rfl
    · intro req inst hreq hinst hplan
      subst hreq
      unfold patchUpdate
      rw [hinst]
      dsimp only
      rw [if_neg (by simp [hpend])]
      rw [if_neg (by simp [hplan])]
      rw [updateInstance_found s req.instanceId _ now inst hinst]
    · intro req inst hreq hinst hqs hqp hne1 hne2 hsync
      subst hreq
      unfold deprovisionDelete
      rw [if_neg (by simp [jsTruthy, hqs, hqp, hne1, hne2])]
      rw [hinst]
      dsimp only
      rw [if_neg (by rw [hqs, hqp]; simp)]
      rw [if_neg (by simp [hpend])]
      rw [if_neg (by simp [hsync])]
  · intro opId op st desc hfound hInst hterm hndO hsound huniq
    have hor : st = OpState.succeeded ∨ st = OpState.failed := by
      cases st
      · simp [OpState.isTerminal] at hterm
      · exact Or.inl rfl
      · exact Or.inr rfl
    have hstNotIP : st ≠ OpState.inProgress := by
      intro he
      rw [he] at hterm
      simp [OpState.isTerminal] at hterm
    unfold updateOperationD updateOperation
    rw [hfound]
    dsimp only
    rw [if_pos hor]
    rcases hids : mfind s.instanceOps op.instanceId with _ | ids
    · dsimp only
      unfold hasPendingOperation
      apply decide_eq_false
      intro hmem
      exact (mem_setDel.mp hmem).2 hInst.symm
    · dsimp only
      have hnoIP : ¬(anyInProgressIn
          (mset s.operations opId (updatedOp op st desc now)) ids = true) := by
        intro hTrue
        unfold anyInProgressIn at hTrue
        rcases List.any_eq_true.mp hTrue with ⟨id, hidIn, hPred⟩
        rcases hfo : mfind (mset s.operations opId (updatedOp op st desc now)) id
          with _ | o
        · rw [hfo] at hPred
          simp at hPred
        · rw [hfo] at hPred
          have hidne : id ≠ opId := by
            intro he
            rw [he, mfind_mset_self] at hfo
            have ho : o = updatedOp op st desc now := by simpa using hfo.symm
            rw [ho] at hPred
            have : st = OpState.inProgress := by
              simpa [inProgressB, updatedOp] using hPred
            exact hstNotIP this
          rw [mfind_mset_ne _ _ _ _ (Ne.symm hidne)] at hfo
          have hoInst : o.instanceId = op.instanceId := by
            rcases hsound (op.instanceId, ids) (mem_of_mfind hids) id hidIn with
              ⟨p', hp', hp1, hp2'⟩
            have hpf : mfind s.operations p'.1 = some p'.2 :=
              mfind_eq_of_mem_nodup hndO hp'
            rw [hp1, hfo] at hpf
            have : o = p'.2 := by simpa using hpf
            rw [this]
            exact hp2'
          have : id = opId := by
            apply huniq (id, o) (mem_of_mfind hfo)
            · rw [hoInst, hInst]
            · simpa [inProgressB] using hPred
          exact hidne this
      rw [if_neg hnoIP]
      unfold hasPendingOperation
      apply decide_eq_false
      intro hmem
      exact (mem_setDel.mp hmem).2 hInst.symm

theorem pending_gate_witness :
    (patchUpdate c1Store { instanceId := "i1" } (.ok ()) "t3").resp =
      respD 422 concurrencyMsg :=
  ((pending_gate cfgSyncW c1Store "i1" "t3" "op9").1 (by decide)).2.1
    { instanceId := "i1" } (.ok ()) rfl (by decide)

end RadwareOSB
